import Mathlib

/-!
Verification development for the rule-based customer-service bot
(perception engine + orchestration/action engine + composer).

Texts are embedded as `List Char`.  Python's `str.lower` is embedded as
ASCII lowercasing (`Char.toLower`), which agrees with CPython on the
ASCII keyword vocabulary the classifiers use.  Python regexes are
hand-compiled into deterministic matchers that reproduce `re.search`
semantics (leftmost start position, greedy repetition with backtracking)
for the specific patterns of `perception.py`.  Monetary floats are
embedded exactly as integer cents; every literal amount in the source
has at most two decimals, and `"%.2f"` formatting of such values agrees
with the cents rendering.  `datetime` is an external collaborator and is
embedded as opaque date strings carried in the environment.
-/

namespace CSBot

/-- Texts are lists of characters. -/
abbrev Str := List Char

/-- Coerce a Lean string literal to the `List Char` representation. -/
def str (s : String) : Str := s.toList

/-- Python `\s` whitespace class (ASCII part). -/
def isSpaceC (c : Char) : Bool :=
  c = ' ' || c = '\t' || c = '\n' || c = '\r' || c = '\x0b' || c = '\x0c'

/-- Python `\d`. -/
def isDigitC (c : Char) : Bool := c.isDigit

/-- Regex class `[A-Z]`. -/
def isUpperC (c : Char) : Bool := c.isUpper

/-- Regex class `[a-z]`. -/
def isLowerC (c : Char) : Bool := c.isLower

/-- Regex class `[A-Za-z]` (what `[A-Z]` matches under `re.I`). -/
def isAlphaC (c : Char) : Bool := c.isAlpha

/-- Regex class `[A-Za-z0-9]` (what `[A-Z0-9]` matches under `re.I`). -/
def isAlnumC (c : Char) : Bool := c.isAlphanum

/-- Python `\w`: word characters. -/
def isWordC (c : Char) : Bool := c.isAlphanum || c = '_'

/-- Python `str.lower()` (ASCII case mapping). -/
def lowerStr (s : Str) : Str := s.map Char.toLower

/-- Python `str.upper()` (ASCII case mapping). -/
def upperStr (s : Str) : Str := s.map Char.toUpper

/-- Boolean list-prefix test. -/
def isPfx : Str → Str → Bool
  | [], _ => true
  | _ :: _, [] => false
  | a :: as, b :: bs => a = b && isPfx as bs

/-- Python substring containment, `needle in hay`. -/
def occursIn (n : Str) : Str → Bool
  | [] => n.isEmpty
  | c :: t => isPfx n (c :: t) || occursIn n t

/-- Python `any(k in content for k in keys)`. -/
def containsAny (keys : List Str) (hay : Str) : Bool :=
  keys.any (fun k => occursIn k hay)

/-- Python `content.count(ch)` for a single-character needle. -/
def countChar (c : Char) (s : Str) : Nat := (s.filter (fun x => x = c)).length

/-- Python dict lookup `d.get(k)`. -/
def dictGet (d : List (String × Str)) (k : String) : Option Str :=
  match d with
  | [] => none
  | (k', v) :: t => if k' = k then some v else dictGet t k

/-- Python dict assignment `d[k] = v` (replaces in place, else appends). -/
def dictSet (d : List (String × Str)) (k : String) (v : Str) : List (String × Str) :=
  match d with
  | [] => [(k, v)]
  | (k', v') :: t => if k' = k then (k, v) :: t else (k', v') :: dictSet t k v

/-- Python `sep.join(xs)`. -/
def joinSep (sep : Str) : List Str → Str
  | [] => []
  | [x] => x
  | x :: y :: t => x ++ sep ++ joinSep sep (y :: t)

/-- Decimal rendering of a natural number. -/
def natStr (n : Nat) : Str := (Nat.repr n).toList

/-- Value of a nonempty string of decimal digits. -/
def digitsToNat (ds : Str) : Nat := ds.foldl (fun a c => a * 10 + (c.toNat - 48)) 0

/-- Zero-pad on the left to width `w` (Python `:0wd`). -/
def padZ (w : Nat) (s : Str) : Str := List.replicate (w - s.length) '0' ++ s

/-- Python `f"{x:.2f}"` for a money value held as integer cents. -/
def fmtMoney (cents : Nat) : Str := natStr (cents / 100) ++ '.' :: padZ 2 (natStr (cents % 100))

/-- Python `f"{n:04d}"`. -/
def pad4 (n : Nat) : Str := padZ 4 (natStr n)

/-- Python `str(i)` for an integer. -/
def intStr (n : Int) : Str := if n < 0 then '-' :: natStr n.natAbs else natStr n.toNat

/-- Python `s.replace(old, new)` (all occurrences; the embedded call
sites always pass a nonempty `old`, and for an empty `old` we return the
input unchanged). -/
def replaceAll (old new : Str) (cs : Str) : Str :=
  if h : old = [] then cs
  else
    match cs with
    | [] => []
    | c :: cs' =>
      if isPfx old (c :: cs') then
        new ++ replaceAll old new (List.drop old.length (c :: cs'))
      else c :: replaceAll old new cs'
termination_by cs.length
decreasing_by
  · simp only [List.length_drop, List.length_cons]
    have h1 : 1 ≤ old.length := by
      cases old with
      | nil => exact absurd rfl h
      | cons a t => simp
    omega
  · simp

/-- Apply `f` to the final element of a list (Python `xs[-1] = f(xs[-1])`;
the embedded call sites always have a nonempty list). -/
def replaceLast (f : Str → Str) : List Str → List Str
  | [] => []
  | [x] => [f x]
  | x :: y :: t => x :: replaceLast f (y :: t)

/-! ## Emotion classifier (`analyze_emotion` in perception.py) -/

/-- Tunable anger keyword list from `analyze_emotion`. -/
def angerKeywords : List Str :=
  [str "angry", str "furious", str "unacceptable", str "terrible", str "hate",
   str "ridiculous", str "done", str "fed up", str "awful"]

/-- Courtesy keyword list from `analyze_emotion`. -/
def politeKeywords : List Str :=
  [str "please", str "thank you", str "thanks", str "kindly"]

/-- Uncertainty keyword list from `analyze_emotion` (the literal `"?"` is
included as a token cue, as in the source). -/
def confusionKeywords : List Str :=
  [str "don't understand", str "confused", str "explain", str "what is",
   str "why is", str "how", str "?"]

/-- Block 1 of `analyze_emotion`: the deterministic keyword/punctuation
baseline. -/
def emotionBaseline (text : Str) : Str :=
  let content := lowerStr text
  if containsAny confusionKeywords content ∧ 1 ≤ countChar '?' content then str "confused"
  else if containsAny angerKeywords content ∨ 1 ≤ countChar '!' content then str "angry"
  else if containsAny politeKeywords content then str "polite"
  else str "neutral"

/-- Block 2 of `analyze_emotion`: the optional VADER refinement.  The
external sentiment collaborator is abstracted as `sent`: `none` models
an unavailable lexicon (the `except` path keeps the baseline), `some c`
models a computed compound score `c ∈ [-1, 1]`. -/
def refineEmotion (baseline : Str) (sent : Option ℚ) : Str :=
  match sent with
  | none => baseline
  | some c =>
    if baseline = str "neutral" ∨ baseline = str "polite" ∨ baseline = str "confused" then
      if c ≤ -(1/2 : ℚ) then str "angry"
      else if (1/2 : ℚ) ≤ c ∧ baseline = str "neutral" then str "polite"
      else baseline
    else baseline

/-- Full `analyze_emotion`: lexical baseline then optional refinement. -/
def analyzeEmotion (text : Str) (sent : Option ℚ) : Str :=
  refineEmotion (emotionBaseline text) sent

/-! ## Hand-compiled matchers for the entity regexes

Each `match*At prev s` decides whether the pattern matches at the
position where `s` starts, `prev` being the character just before that
position (`none` at the start of the text); this is what `\b` boundary
assertions inspect.  `searchFrom` then scans positions left to right,
which is exactly `re.search`.  Greedy sub-repetitions that the original
patterns cannot backtrack into profitably (a repetition whose class is
disjoint from the character that must follow it) are compiled as maximal
munch; genuinely observable backtracking (order marker alternatives, the
`{2,3}` counter of the generic order code, the trailing digit of the
phone run, alternation order) is compiled explicitly. -/

/-- Leftmost-position regex search: try a match at every position. -/
def searchFrom (f : Option Char → Str → Option α) : Option Char → Str → Option α
  | prev, [] => f prev []
  | prev, c :: t =>
    match f prev (c :: t) with
    | some r => some r
    | none => searchFrom f (some c) t

/-- Boolean variant of `searchFrom`. -/
def searchB (f : Option Char → Str → Bool) : Option Char → Str → Bool
  | prev, [] => f prev []
  | prev, c :: t => f prev (c :: t) || searchB f (some c) t

/-- Word-boundary test against the preceding character (the following
character at the position is a word character in every use). -/
def wordB : Option Char → Bool
  | none => true
  | some c => !isWordC c

/-- Word-boundary test after a word character: the rest of the text must
be empty or start with a non-word character. -/
def endB (s : Str) : Bool :=
  match s with
  | [] => true
  | c :: _ => !isWordC c

/-- Case-insensitive literal prefix test (`lit` given in lowercase),
for literals under `re.I`. -/
def ciPfx : Str → Str → Bool
  | [], _ => true
  | _ :: _, [] => false
  | a :: as, b :: bs => a = Char.toLower b && ciPfx as bs

/-! ### MISSING_PART_RE -/

/-- Fixed part vocabulary of `MISSING_PART_RE`. -/
def partVocab : List Str :=
  [str "hex key", str "allen key", str "screw", str "adapter", str "cable",
   str "charger", str "manual", str "tool"]

/-- First alternative of a case-insensitive literal alternation matching
at this position; returns the text slice actually matched. -/
def firstCiLit (lits : List Str) (s : Str) : Option Str :=
  match lits with
  | [] => none
  | l :: ls => if ciPfx l s then some (s.take l.length) else firstCiLit ls s

/-- Match `MISSING_PART_RE` at one position. -/
def matchPartAt (_ : Option Char) (s : Str) : Option Str := firstCiLit partVocab s

/-- `MISSING_PART_RE.search`. -/
def missingPartSearch (text : Str) : Option Str := searchFrom matchPartAt none text

/-- `detect_missing_part_name` from perception.py. -/
def detectMissingPartName (text : Str) : Option Str := missingPartSearch text

/-! ### The missing/no/not-included phrase regex of the intent rules -/

/-- Literal alternative followed by the closing `\b`. -/
def litB (l : Str) (s : Str) : Bool := isPfx l s && endB (s.drop l.length)

/-- Match `\b(missing|no|not included|did(?:n't| not) come with)\b` at
one position (alternatives in source order). -/
def matchMissingPhraseAt (prev : Option Char) (s : Str) : Bool :=
  wordB prev &&
    (litB (str "missing") s || litB (str "no") s || litB (str "not included") s ||
      (isPfx (str "did") s &&
        ((isPfx (str "n't come with") (s.drop 3) && endB (s.drop 16)) ||
         (isPfx (str " not come with") (s.drop 3) && endB (s.drop 17)))))

/-- Search for the missing-phrase pattern over the lowercased content. -/
def missingPhrasePresent (content : Str) : Bool := searchB matchMissingPhraseAt none content

/-! ### ORDER_RE_LIST -/

/-- Trailing punctuation set of `rstrip(".,;:!?)]}")`. -/
def isTrimPunct (c : Char) : Bool :=
  c = '.' || c = ',' || c = ';' || c = ':' || c = '!' || c = '?' || c = ')' || c = ']' || c = '\x7d'

/-- Python `s.rstrip(".,;:!?)]}")`. -/
def rstripPunct (s : Str) : Str := (s.reverse.dropWhile isTrimPunct).reverse

/-- Capture group `ORD[A-Z0-9]{5,}` under `re.I` (returns the slice as it
appears in the text). -/
def ordGroup1 (s : Str) : Option Str :=
  if ciPfx (str "ord") s then
    let pre := s.take 3
    let run := (s.drop 3).takeWhile isAlnumC
    if 5 ≤ run.length then some (pre ++ run) else none
  else none

/-- Capture group `ORD-[A-Z0-9\-]{5,}` under `re.I`. -/
def ordGroup2 (s : Str) : Option Str :=
  if ciPfx (str "ord-") s then
    let pre := s.take 4
    let run := (s.drop 4).takeWhile (fun c => isAlnumC c || c = '-')
    if 5 ≤ run.length then some (pre ++ run) else none
  else none

/-- One counter value of `[A-Z]{2,3}` (under `re.I`) followed by
`-\d{4,}`. -/
def g3try (s : Str) (k : Nat) : Option Str :=
  let pre := s.take k
  if pre.length = k && pre.all isAlphaC then
    match s.drop k with
    | '-' :: rest =>
      let ds := rest.takeWhile isDigitC
      if 4 ≤ ds.length then some (pre ++ '-' :: ds) else none
    | _ => none
  else none

/-- Capture group `[A-Z]{2,3}-\d{4,}` under `re.I` (greedy counter:
three letters tried before two). -/
def ordGroup3 (s : Str) : Option Str := (g3try s 3).orElse (fun _ => g3try s 2)

/-- The glue `\s*[:\-#]?\s*` between the order marker and the capture
group.  Both `\s*` and the optional punctuation are compiled as maximal
munch: no capture group starts with whitespace or with `:`/`-`/`#`, so
backtracking into them can never succeed. -/
def afterMarker (gf : Str → Option Str) (s : Str) : Option Str :=
  let s1 := s.dropWhile isSpaceC
  let s2 :=
    match s1 with
    | c :: t => if c = ':' || c = '-' || c = '#' then t else s1
    | [] => s1
  gf (s2.dropWhile isSpaceC)

/-- Match one of the `ORDER_PATTERNS` at a position: the marker
alternation `(?:\border|\bord|#)` with its backtracking (a failed
`\border` continuation retries as `\bord`), then glue, then the group. -/
def matchOrderAt (gf : Str → Option Str) (prev : Option Char) (s : Str) : Option Str :=
  (if wordB prev && ciPfx (str "order") s then afterMarker gf (s.drop 5) else none).orElse (fun _ =>
  (if wordB prev && ciPfx (str "ord") s then afterMarker gf (s.drop 3) else none).orElse (fun _ =>
  (if isPfx (str "#") s then afterMarker gf (s.drop 1) else none)))

/-- The `for rx in ORDER_RE_LIST` loop: each pattern searched over the
whole text, first pattern with a match anywhere wins. -/
def orderIdRaw (text : Str) : Option Str :=
  (searchFrom (matchOrderAt ordGroup1) none text).orElse (fun _ =>
  (searchFrom (matchOrderAt ordGroup2) none text).orElse (fun _ =>
  searchFrom (matchOrderAt ordGroup3) none text))

/-! ### PHONE_RE -/

/-- Interior class `[\d\-\s]` of `PHONE_RE`. -/
def phoneClassC (c : Char) : Bool := isDigitC c || c = '-' || isSpaceC c

/-- Greedy placement of the final `\d` of `PHONE_RE`: the largest index
`k ≥ 7` into the interior run whose character is a digit. -/
def phonePick (run : Str) : Nat → Option Nat
  | 0 => none
  | Nat.succ j =>
    if Nat.succ j < 7 then none
    else
      match run[Nat.succ j]? with
      | some c => if isDigitC c then some (Nat.succ j) else phonePick run j
      | none => phonePick run j

/-- Match `\d[\d\-\s]{7,}\d` at this position. -/
def matchPhoneCore (s : Str) : Option Str :=
  match s with
  | c :: t =>
    if isDigitC c then
      let run := t.takeWhile phoneClassC
      match phonePick run (run.length - 1) with
      | some k => some (c :: run.take (k + 1))
      | none => none
    else none
  | [] => none

/-- Match `(\+?\d[\d\-\s]{7,}\d)` at one position (when the text starts
with `+` the alternative without it would place `\d` on `+` and fail, so
it is not tried separately). -/
def matchPhoneAt (_ : Option Char) (s : Str) : Option Str :=
  match s with
  | '+' :: t => (matchPhoneCore t).map (fun g => '+' :: g)
  | _ => matchPhoneCore s

/-- `PHONE_RE.search`. -/
def phoneSearch (text : Str) : Option Str := searchFrom matchPhoneAt none text

/-- Python `re.fullmatch(r"\d{4}-\d{2}-\d{2}", raw)` used by the phone
guard. -/
def isIsoDate (s : Str) : Bool :=
  match s with
  | [a, b, c, d, e, f, g, h, i, j] =>
    isDigitC a && isDigitC b && isDigitC c && isDigitC d && e = '-' &&
    isDigitC f && isDigitC g && h = '-' && isDigitC i && isDigitC j
  | _ => false

/-- Python `len(re.sub(r"\D", "", raw))`. -/
def digitCount (s : Str) : Nat := (s.filter isDigitC).length

/-! ### AMOUNT_RE -/

/-- Greedy `(,[0-9]{3})*`: maximal repetitions of a comma followed by
exactly three digits; returns the consumed text and the remainder. -/
def commaGroups : Str → Str × Str
  | ',' :: d1 :: d2 :: d3 :: r =>
    if isDigitC d1 && isDigitC d2 && isDigitC d3 then
      let p := commaGroups r
      (',' :: d1 :: d2 :: d3 :: p.1, p.2)
    else ([], ',' :: d1 :: d2 :: d3 :: r)
  | s => ([], s)

/-- First alternative `[0-9]{1,3}(?:,[0-9]{3})*(?:\.\d{1,2})` of the
`AMOUNT_RE` group.  When the leading digit run is longer than three the
alternative cannot match (the character after the counter is a digit, so
neither `,` nor `.` can follow), and after the maximal comma-group run a
literal `.` must follow (backtracking stops before a `,`). -/
def amountAlt1 (s : Str) : Option Str :=
  let run := s.takeWhile isDigitC
  if run.length = 0 || 3 < run.length then none
  else
    let p := commaGroups (s.drop run.length)
    match p.2 with
    | '.' :: r =>
      let fs := r.takeWhile isDigitC
      if fs.length = 0 then none else some (run ++ p.1 ++ '.' :: fs.take 2)
    | _ => none

/-- Second alternative `\d+(?:\.\d{1,2})?` of the `AMOUNT_RE` group. -/
def amountAlt2 (s : Str) : Option Str :=
  let run := s.takeWhile isDigitC
  if run.length = 0 then none
  else
    match s.drop run.length with
    | '.' :: r =>
      let fs := r.takeWhile isDigitC
      if fs.length = 0 then some run else some (run ++ '.' :: fs.take 2)
    | _ => some run

/-- The capture group of `AMOUNT_RE` (alternation in source order). -/
def amountGroup (s : Str) : Option Str := (amountAlt1 s).orElse (fun _ => amountAlt2 s)

/-- Match `\$?\s*(group)` at one position (a `$` must be followed by the
group after optional whitespace; without consuming the `$` the group
would start on `$` and fail). -/
def matchAmountAt (_ : Option Char) (s : Str) : Option Str :=
  match s with
  | '$' :: t => amountGroup (t.dropWhile isSpaceC)
  | _ => amountGroup (s.dropWhile isSpaceC)

/-- `AMOUNT_RE.search`. -/
def amountSearch (text : Str) : Option Str := searchFrom matchAmountAt none text

/-- Python `m.group(1).replace(",", "")` for the amount entity. -/
def stripCommas (s : Str) : Str := s.filter (fun c => !(c = ','))

/-! ### TICKET_RE -/

/-- Exactly `k` digits (`\d{k}`), returning the digits and remainder. -/
def exactDigits (k : Nat) (s : Str) : Option (Str × Str) :=
  let d := s.take k
  if d.length = k && d.all isDigitC then some (d, s.drop k) else none

/-- Dated ticket alternative `PFX\d{4}-\d{2}-\d{2}-[A-Z0-9]+` where
`pfx` already contains the trailing dash (`TCK-` or `RET-`);
case-sensitive. -/
def ticketDated (pfx : Str) (s : Str) : Option Str :=
  if isPfx pfx s then
    match exactDigits 4 (s.drop pfx.length) with
    | some (d1, r1) =>
      match r1 with
      | '-' :: r2 =>
        match exactDigits 2 r2 with
        | some (d2, r3) =>
          match r3 with
          | '-' :: r4 =>
            match exactDigits 2 r4 with
            | some (d3, r5) =>
              match r5 with
              | '-' :: r6 =>
                let run := r6.takeWhile (fun c => isUpperC c || isDigitC c)
                if 1 ≤ run.length then
                  some (pfx ++ d1 ++ '-' :: d2 ++ '-' :: d3 ++ '-' :: run)
                else none
              | _ => none
            | none => none
          | _ => none
        | none => none
      | _ => none
    | none => none
  else none

/-- Bare alternative `T\d{3,}` (case-sensitive). -/
def ticketBareT (s : Str) : Option Str :=
  match s with
  | 'T' :: t =>
    let run := t.takeWhile isDigitC
    if 3 ≤ run.length then some ('T' :: run) else none
  | _ => none

/-- Match `TICKET_RE` at one position (alternatives in source order). -/
def matchTicketAt (_ : Option Char) (s : Str) : Option Str :=
  (ticketDated (str "TCK-") s).orElse (fun _ =>
  (ticketBareT s).orElse (fun _ => ticketDated (str "RET-") s))

/-- `TICKET_RE.search` (applied to the raw text, not the lowercased
content). -/
def ticketSearch (text : Str) : Option Str := searchFrom matchTicketAt none text

/-! ### SERIAL_RE -/

/-- Match `\b([A-Z]{2,}-[A-Z0-9]{2,}-[A-Z0-9]{2,})\b` at one position
(case-sensitive; every repetition is maximal because its class excludes
the required following character). -/
def matchSerialAt (prev : Option Char) (s : Str) : Option Str :=
  if wordB prev then
    let r1 := s.takeWhile isUpperC
    if 2 ≤ r1.length then
      match s.drop r1.length with
      | '-' :: t1 =>
        let r2 := t1.takeWhile (fun c => isUpperC c || isDigitC c)
        if 2 ≤ r2.length then
          match t1.drop r2.length with
          | '-' :: t2 =>
            let r3 := t2.takeWhile (fun c => isUpperC c || isDigitC c)
            if 2 ≤ r3.length && endB (t2.drop r3.length) then
              some (r1 ++ '-' :: r2 ++ '-' :: r3)
            else none
          | _ => none
        else none
      | _ => none
    else none
  else none

/-- `SERIAL_RE.search`. -/
def serialSearch (text : Str) : Option Str := searchFrom matchSerialAt none text

/-! ### AGENT_MENTION_RE -/

/-- The keyword alternation `(?:from|in|at)` (case-sensitive literals
with pairwise distinct first characters, so at most one can apply). -/
def kwTail (s : Str) : Option Str :=
  if isPfx (str "from") s then some (s.drop 4)
  else if isPfx (str "in") s then some (s.drop 2)
  else if isPfx (str "at") s then some (s.drop 2)
  else none

/-- Match `\b([A-Z][a-z]+)\b\s+(?:from|in|at)\s+support\b` at one
position, returning the captured name. -/
def matchAgentAt (prev : Option Char) (s : Str) : Option Str :=
  if wordB prev then
    match s with
    | c :: t =>
      if isUpperC c then
        let run := t.takeWhile isLowerC
        if 1 ≤ run.length && endB (t.drop run.length) then
          let s1 := t.drop run.length
          let sp1 := s1.takeWhile isSpaceC
          if 1 ≤ sp1.length then
            match kwTail (s1.drop sp1.length) with
            | some s3 =>
              let sp2 := s3.takeWhile isSpaceC
              if 1 ≤ sp2.length then
                let s4 := s3.drop sp2.length
                if isPfx (str "support") s4 && endB (s4.drop 7) then some (c :: run)
                else none
              else none
            | none => none
          else none
        else none
      else none
    | [] => none
  else none

/-- `detect_agent_name` from perception.py. -/
def detectAgentName (text : Str) : Option Str := searchFrom matchAgentAt none text

/-! ## Perception engine (`perceive` in perception.py) -/

/-- Refund intent keywords. -/
def refundKeys : List Str := [str "refund", str "return", str "money back", str "chargeback"]

/-- Defect intent keywords. -/
def defectKeys : List Str :=
  [str "defect", str "broken", str "damaged", str "cracked", str "not working",
   str "doesn't work", str "dies"]

/-- Billing intent keywords. -/
def billingKeys : List Str :=
  [str "bill", str "charged", str "invoice", str "fee", str "renewal", str "charge "]

/-- Cancellation intent keywords. -/
def cancelKeys : List Str :=
  [str "cancel", str "canceling", str "switch", str "leave", str "take my business elsewhere"]

/-- Callback intent keywords. -/
def callbackKeys : List Str := [str "call me", str "call back", str "callback", str "phone"]

/-- Praise intent keywords. -/
def praiseKeys : List Str :=
  [str "great service", str "perfect service", str "kudos", str "appreciate",
   str "thank you", str "thanks"]

/-- Intent selection of `perceive`: single pass, strict priority order,
first match wins (`content` is the lowercased text; `TICKET_RE` is
searched over the raw text as in the source). -/
def intentOf (text content : Str) : Str :=
  if containsAny refundKeys content then str "refund_request"
  else if containsAny defectKeys content then str "defect_report"
  else if containsAny billingKeys content then str "billing_issue"
  else if containsAny cancelKeys content then str "cancellation_threat"
  else if missingPhrasePresent content ∧ (missingPartSearch content).isSome then str "missing_part"
  else if containsAny callbackKeys content then str "callback_request"
  else if (ticketSearch text).isSome then str "followup_existing"
  else if containsAny praiseKeys content then str "praise"
  else str "generic_complaint"

/-- Entity extraction of `perceive`, in source order: order id (with
trailing-punctuation strip and uppercasing), phone (with the ISO-date
and digit-count guards), amount (commas stripped), ticket id, serial,
and — only for the missing_part intent — the part name. -/
def extractEntities (text : Str) (intent : Str) : List (String × Str) :=
  let e0 : List (String × Str) := []
  let e1 :=
    match orderIdRaw text with
    | some g => dictSet e0 "order_id" (upperStr (rstripPunct g))
    | none => e0
  let e2 :=
    match phoneSearch text with
    | some raw =>
      if isIsoDate raw then e1
      else if 10 ≤ digitCount raw ∧ digitCount raw ≤ 15 then dictSet e1 "phone" raw
      else e1
    | none => e1
  let e3 :=
    match amountSearch text with
    | some g => dictSet e2 "amount" (stripCommas g)
    | none => e2
  let e4 :=
    match ticketSearch text with
    | some g => dictSet e3 "ticket_id" g
    | none => e3
  let e5 :=
    match serialSearch text with
    | some g => dictSet e4 "serial" g
    | none => e4
  if intent = str "missing_part" then
    match detectMissingPartName text with
    | some part => if part.isEmpty then e5 else dictSet e5 "part_name" part
    | none => e5
  else e5

/-- The immutable perception snapshot. -/
structure PerceptionResult where
  emotion : Str
  intent : Str
  entities : List (String × Str)
  churn_risk : Bool
  urgency : Str
deriving Repr, DecidableEq

/-- `perceive` from perception.py.  `sent` abstracts the optional VADER
sentiment collaborator exactly as in `analyzeEmotion`. -/
def perceive (text : Str) (sent : Option ℚ) : PerceptionResult :=
  let content := lowerStr text
  let emotion := analyzeEmotion text sent
  let intent := intentOf text content
  let entities := extractEntities text intent
  let churn : Bool := intent = str "cancellation_threat"
  let urgency :=
    if churn = true ∨ emotion = str "angry" then str "high"
    else if intent = str "billing_issue" ∨ intent = str "refund_request" ∨
            intent = str "defect_report" then str "medium"
    else str "low"
  ⟨emotion, intent, entities, churn, urgency⟩

/-! ## Policy store (policy.py) -/

/-- `POLICY["refund_window_days"]`. -/
def refundWindowDays : Int := 30

/-- `POLICY["goodwill_credit_default"]` (10.0 dollars, held as cents). -/
def goodwillCreditDefaultCents : Nat := 1000

/-- `POLICY["loyalty_credit_amount"]` (5.0 dollars, held as cents). -/
def loyaltyCreditAmountCents : Nat := 500

/-- `POLICY["callback_window"]`. -/
def callbackWindow : Str := str "today 4–6pm"

/-- `POLICY["replacement_delivery_days"]`. -/
def replacementDeliveryDays : Nat := 2

/-- `POLICY["refund_eta_days"]`. -/
def refundEtaDays : Nat := 3

/-! ## Record store and actions (actions.py)

The store's process-wide mutable lists and counters are embedded as a
`Counters` record threaded through the orchestration (only list lengths
are observable through identifiers).  `datetime.now()` is an external
collaborator: the environment carries today's two date renderings and a
formatter for "now plus k days" (`strftime("%b %d, %Y")`). -/

/-- Sequence state of the record store (list lengths / counter values).
`tickets` holds the next value of `TICKET_COUNTER`. -/
structure Counters where
  tickets : Nat
  refunds : Nat
  replacements : Nat
  credits : Nat
  callbacks : Nat
  escalations : Nat
  shipments : Nat
deriving Repr, DecidableEq

/-- One order record: `created_at` is embedded as the elapsed days
`(datetime.now() - created_at).days`. -/
structure Order where
  ageDays : Int
  status : Str
  refundableDays : Int
  amountCents : Nat
deriving Repr, DecidableEq

/-- Static part of the environment: the order table and the date
collaborator. -/
structure Env where
  orders : Str → Option Order
  todayISO : Str
  todayCompact : Str
  fmtFromNow : Nat → Str
  cnt : Counters

/-- `is_refund_eligible` from actions.py. -/
def isRefundEligible (o : Order) : Bool × Str :=
  if o.ageDays ≤ o.refundableDays then
    (true, str "Within " ++ intStr o.refundableDays ++ str "-day window (day " ++
      intStr o.ageDays ++ str ").")
  else
    (false, str "Past " ++ intStr o.refundableDays ++ str "-day window (day " ++
      intStr o.ageDays ++ str ").")

/-- `_ticket_prefix_for_kind` from actions.py. -/
def ticketKindPfx (kind : Str) : Str :=
  if kind = str "cancellation_threat" then str "RET" else str "TCK"

/-- `create_ticket` from actions.py (payload only feeds the log). -/
def createTicket (env : Env) (kind : Str) (c : Counters) : Str × Counters :=
  (ticketKindPfx kind ++ '-' :: env.todayISO ++ '-' :: upperStr (kind.take 2) ++
     natStr c.tickets,
   {c with tickets := c.tickets + 1})

/-- `schedule_callback` from actions.py. -/
def scheduleCallback (phone window : Str) (c : Counters) : Str × Counters :=
  (str "Callback scheduled to " ++ phone ++ ' ' :: window,
   {c with callbacks := c.callbacks + 1})

/-- `escalate` from actions.py. -/
def escalate (env : Env) (c : Counters) : Str × Counters :=
  (str "ESC-" ++ env.todayCompact ++ '-' :: pad4 (c.escalations + 1),
   {c with escalations := c.escalations + 1})

/-- `issue_refund` from actions.py: returns (refund id, ETA). -/
def issueRefund (env : Env) (c : Counters) : Str × Str × Counters :=
  (str "RF-" ++ env.todayCompact ++ '-' :: pad4 (c.refunds + 1),
   env.fmtFromNow refundEtaDays,
   {c with refunds := c.refunds + 1})

/-- `create_replacement` from actions.py: returns (id, delivery ETA). -/
def createReplacement (env : Env) (c : Counters) : Str × Str × Counters :=
  (str "RP-" ++ env.todayCompact ++ '-' :: pad4 (c.replacements + 1),
   env.fmtFromNow replacementDeliveryDays,
   {c with replacements := c.replacements + 1})

/-- `add_loyalty_credit` from actions.py: returns the credit id (the
applied date is dropped by every embedded caller). -/
def addLoyaltyCredit (env : Env) (c : Counters) : Str × Counters :=
  (str "CR-" ++ env.todayCompact ++ '-' :: pad4 (c.credits + 1),
   {c with credits := c.credits + 1})

/-- `ship_missing_part` from actions.py: (shipment id, ETA with the
local `eta_days = 4`). -/
def shipMissingPart (env : Env) (c : Counters) : Str × Str × Counters :=
  ('S' :: pad4 (c.shipments + 1), env.fmtFromNow 4,
   {c with shipments := c.shipments + 1})

/-- `ensure_loyalty_credit_once` from actions.py: issue one credit for
this request unless `actions["credit_id"]` is already truthy. -/
def ensureLoyaltyCreditOnce (env : Env) (acts : List (String × Str)) (facts : List Str)
    (amtCents : Nat) (c : Counters) : List (String × Str) × List Str × Counters :=
  let issued :=
    let p := addLoyaltyCredit env c
    (dictSet acts "credit_id" p.1,
     facts ++ [str "Loyalty credit: $" ++ fmtMoney amtCents ++ str " (ID " ++ p.1 ++ str ")"],
     p.2)
  match dictGet acts "credit_id" with
  | some v => if v.isEmpty then issued else (acts, facts, c)
  | none => issued

/-! ## Orchestration (handle.py) -/

/-- Accepted shape of the amount numerals that `float(a_txt)` receives
in the billing rule (`\d+(\.\d{1,2})?`, a sublanguage of Python float
literals); `none` models a `ValueError` from `float`.  Cents are exact
where the binary double has at most two decimals, which covers every
amount observable by the claims. -/
def parseMoneyStr (s : Str) : Option Nat :=
  let ds := s.takeWhile isDigitC
  if ds.isEmpty then none
  else
    match s.drop ds.length with
    | [] => some (digitsToNat ds * 100)
    | '.' :: fs =>
      if fs.length = 1 ∧ fs.all isDigitC then some (digitsToNat ds * 100 + digitsToNat fs * 10)
      else if fs.length = 2 ∧ fs.all isDigitC then some (digitsToNat ds * 100 + digitsToNat fs)
      else none
    | _ => none

/-- Truthy `order_id` entity (`if oid := p.entities.get("order_id")`). -/
def oidTruthy (p : PerceptionResult) : Option Str :=
  match dictGet p.entities "order_id" with
  | some v => if v.isEmpty then none else some v
  | none => none

/-- The `order` variable of `handle_complaint` after the lookup rule. -/
def theOrder (env : Env) (p : PerceptionResult) : Option Order :=
  match oidTruthy p with
  | some oid => env.orders oid
  | none => none

/-- Mutable per-request state of the orchestration. -/
structure RS where
  acts : List (String × Str)
  facts : List Str
  cnt : Counters
deriving Repr, DecidableEq

/-- Rule 1, order lookup: append the order-summary fact when found. -/
def orderLookupStep (env : Env) (p : PerceptionResult) (rs : RS) : RS :=
  match oidTruthy p with
  | some oid =>
    match env.orders oid with
    | some o =>
      {rs with facts := rs.facts ++ [str "Order: " ++ oid ++ str " | status: " ++ o.status ++
        str " | amount: $" ++ fmtMoney o.amountCents]}
    | none => rs
  | none => rs

/-- The `NEED_TICKET` intent set of `handle_complaint`. -/
def needTicket (intent : Str) : Bool :=
  intent = str "defect_report" || intent = str "billing_issue" ||
  intent = str "generic_complaint" || intent = str "cancellation_threat" ||
  intent = str "missing_part"

/-- Rule 2, ticket creation / follow-up recording. -/
def ticketStep (env : Env) (p : PerceptionResult) (rs : RS) : RS :=
  if needTicket p.intent = true ∨ (p.intent = str "refund_request" ∧ theOrder env p = none) then
    let tc := createTicket env p.intent rs.cnt
    ⟨dictSet rs.acts "ticket_id" tc.1, rs.facts ++ [str "Ticket: " ++ tc.1], tc.2⟩
  else if p.intent = str "followup_existing" then
    let tid := (dictGet p.entities "ticket_id").getD (str "(not provided)")
    {rs with facts := rs.facts ++ [str "Continuing prior ticket: " ++ tid]}
  else rs

/-- Rule 3, refund flow. -/
def refundStep (env : Env) (p : PerceptionResult) (rs : RS) : RS :=
  if p.intent = str "refund_request" then
    match theOrder env p with
    | some o =>
      let er := isRefundEligible o
      let rs1 : RS := {rs with facts := rs.facts ++
        [(if er.1 then str "Refund eligible. " else str "Refund ineligible. ") ++ er.2]}
      if er.1 then
        let ir := issueRefund env rs1.cnt
        ⟨dictSet (dictSet rs1.acts "refund_id" ir.1) "refund_eta" ir.2.1,
         rs1.facts ++ [str "Refund ID: " ++ ir.1 ++ str " | ETA: " ++ ir.2.1], ir.2.2⟩
      else
        let e := ensureLoyaltyCreditOnce env rs1.acts rs1.facts goodwillCreditDefaultCents rs1.cnt
        ⟨e.1, replaceLast (replaceAll (str "Loyalty credit") (str "Goodwill credit")) e.2.1, e.2.2⟩
    | none => rs
  else rs

/-- Rule 4, defect/replacement flow. -/
def defectStep (env : Env) (p : PerceptionResult) (rs : RS) : RS :=
  if p.intent = str "defect_report" then
    match theOrder env p with
    | some o =>
      let rs1 : RS :=
        if o.status = str "carrier_damage_scan" ∨ o.ageDays ≤ refundWindowDays then
          let cr := createReplacement env rs.cnt
          ⟨dictSet (dictSet rs.acts "replacement_id" cr.1) "delivery_eta" cr.2.1,
           rs.facts ++ [str "Replacement ID: " ++ cr.1 ++ str " | Delivery ETA: " ++ cr.2.1],
           cr.2.2⟩
        else
          {rs with facts := rs.facts ++ [str "Outside 30 days; offering repair or prorated options."]}
      match dictGet p.entities "serial" with
      | some s => if s.isEmpty then rs1 else {rs1 with facts := rs1.facts ++ [str "Serial: " ++ s]}
      | none => rs1
    | none => rs
  else rs

/-- Duplicate-charge indicator keywords of the billing rule. -/
def dupChargeKeys : List Str := [str "twice", str "duplicate", str "charged again", str "double"]

/-- Rule 5, billing flow.  `none` models the `float(a_txt)` call raising
and crashing the request. -/
def billingStep (env : Env) (p : PerceptionResult) (userText : Str) (rs : RS) : Option RS :=
  if p.intent = str "billing_issue" then
    let rs1 : RS := {rs with facts := rs.facts ++
      [str "Billing audit opened to verify duplicate/incorrect charges."]}
    let content := lowerStr userText
    match dictGet p.entities "amount" with
    | some a =>
      if a.isEmpty then some rs1
      else if containsAny dupChargeKeys content then
        match parseMoneyStr a with
        | some amtC =>
          let e := ensureLoyaltyCreditOnce env rs1.acts rs1.facts amtC rs1.cnt
          some ⟨e.1,
            replaceLast (replaceAll (str "Loyalty credit") (str "Immediate credit issued")) e.2.1,
            e.2.2⟩
        | none => none
      else some {rs1 with facts := rs1.facts ++ [str "Amount in question noted: $" ++ a]}
    | none => some rs1
  else some rs

/-- Rule 6, missing-part flow. -/
def missingStep (env : Env) (p : PerceptionResult) (rs : RS) : RS :=
  if p.intent = str "missing_part" then
    let part := (dictGet p.entities "part_name").getD (str "accessory")
    let sh := shipMissingPart env rs.cnt
    let rs1 : RS :=
      ⟨dictSet (dictSet rs.acts "shipment_id" sh.1) "shipment_eta" sh.2.1,
       rs.facts ++ [str "Missing part shipment: " ++ sh.1 ++ str " | " ++ part ++
         str " | ETA: " ++ sh.2.1],
       sh.2.2⟩
    let e := ensureLoyaltyCreditOnce env rs1.acts rs1.facts loyaltyCreditAmountCents rs1.cnt
    ⟨e.1, e.2.1, e.2.2⟩
  else rs

/-- Rule 7, praise flow. -/
def praiseStep (env : Env) (p : PerceptionResult) (userText : Str) (rs : RS) : RS :=
  if p.intent = str "praise" then
    let rs1 : RS :=
      match detectAgentName userText with
      | some nm =>
        if nm.isEmpty then rs
        else ⟨dictSet rs.acts "agent_name" nm,
              rs.facts ++ [str "Kudos recorded for " ++ nm ++ str "."], rs.cnt⟩
      | none => rs
    let e := ensureLoyaltyCreditOnce env rs1.acts rs1.facts loyaltyCreditAmountCents rs1.cnt
    ⟨e.1, e.2.1, e.2.2⟩
  else rs

/-- Rule 8, retention/escalation flow (`apply_retention_offer` routes to
`add_loyalty_credit` without the duplicate guard). -/
def cancelStep (env : Env) (p : PerceptionResult) (rs : RS) : RS :=
  if p.intent = str "cancellation_threat" then
    let es := escalate env rs.cnt
    let rs1 : RS := ⟨dictSet rs.acts "escalation_id" es.1,
      rs.facts ++ [str "Escalation: " ++ es.1], es.2⟩
    let cr := addLoyaltyCredit env rs1.cnt
    ⟨dictSet rs1.acts "credit_id" cr.1,
     rs1.facts ++ [str "Retention credit: $" ++ fmtMoney goodwillCreditDefaultCents ++
       str " (ID " ++ cr.1 ++ str ")"],
     cr.2⟩
  else rs

/-- Rule 9, callback scheduling (fires on the callback intent or on a
truthy phone entity, independently of the other rules). -/
def callbackStep (env : Env) (p : PerceptionResult) (rs : RS) : RS :=
  let phoneTruthy : Bool :=
    match dictGet p.entities "phone" with
    | some v => !v.isEmpty
    | none => false
  if p.intent = str "callback_request" ∨ phoneTruthy = true then
    let phone := (dictGet p.entities "phone").getD (str "(not provided)")
    let sc := scheduleCallback phone callbackWindow rs.cnt
    ⟨dictSet rs.acts "callback" sc.1, rs.facts ++ [sc.1], sc.2⟩
  else rs

/-! ## Composer (compose.py)

`polish_with_gemini` is the optional external tone-polish collaborator;
its contract returns the input unchanged on any failure (no credential),
so the modeled reply is the deterministic `compose_sections` output. -/

/-- Rank used by the friendly reordering of done-lines for missing-part
scenarios (`_rank_missing_part`). -/
def rankMissingPart (s : Str) : Nat :=
  if isPfx (str "Dispatched the missing part") s then 0
  else if isPfx (str "Created support case") s then 1
  else if isPfx (str "We also applied") s || isPfx (str "Applied a credit") s then 2
  else 3

/-- Stable insertion by rank (Python `list.sort(key=...)` is stable). -/
def insertByRank (x : Str) : List Str → List Str
  | [] => [x]
  | y :: t => if rankMissingPart y ≤ rankMissingPart x then y :: insertByRank x t else x :: y :: t

/-- Stable sort by `rankMissingPart`. -/
def sortByRank : List Str → List Str
  | [] => []
  | x :: t => insertByRank x (sortByRank t)

/-- Rewrite of the first `Applied a credit` done-line into the courtesy
phrasing (the Python loop breaks after the first hit). -/
def courtesyRewrite (cid : Str) : List Str → List Str
  | [] => []
  | l :: t =>
    if isPfx (str "Applied a credit") l then
      (str "We also applied a small courtesy credit (ID " ++ cid ++ str ").") :: t
    else l :: courtesyRewrite cid t

/-- Optional-valued helper for building the done/next line lists: emit
the line when the action key is truthy. -/
def lineIfAct (acts : List (String × Str)) (k : String) (mk : Str → Str) : List Str :=
  match dictGet acts k with
  | some v => if v.isEmpty then [] else [mk v]
  | none => []

/-- Summary paragraph of `compose_sections` (independent of the fact
list): completed actions, next-step timelines and the intro. -/
def composePara (p : PerceptionResult) (acts : List (String × Str)) : Str :=
  let doneLines0 :=
    lineIfAct acts "ticket_id" (fun v => str "Created support case " ++ v ++
      str " and documented your issue.") ++
    lineIfAct acts "refund_id" (fun v => str "Initiated a refund (ID " ++ v ++ str ").") ++
    lineIfAct acts "replacement_id" (fun v => str "Queued a replacement shipment (ID " ++ v ++
      str ").") ++
    lineIfAct acts "shipment_id" (fun v => str "Dispatched the missing part (shipment " ++ v ++
      str ").") ++
    lineIfAct acts "callback" (fun v => v) ++
    lineIfAct acts "escalation_id" (fun v => str "Escalated your case internally (ID " ++ v ++
      str ").") ++
    lineIfAct acts "credit_id" (fun v => str "Applied a credit (ID " ++ v ++ str ").")
  let doneLines1 :=
    if doneLines0.isEmpty then [str "Documented your report and confirmed next steps."]
    else doneLines0
  let doneLines :=
    if p.intent = str "missing_part" then
      let rewritten :=
        match dictGet acts "credit_id" with
        | some v => if v.isEmpty then doneLines1 else courtesyRewrite v doneLines1
        | none => doneLines1
      sortByRank rewritten
    else doneLines1
  let nextLines :=
    lineIfAct acts "refund_eta" (fun v => str "Refund posts by " ++ v ++ str ".") ++
    lineIfAct acts "delivery_eta" (fun v => str "Replacement delivery ETA " ++ v ++ str ".") ++
    lineIfAct acts "shipment_eta" (fun v => str "Missing part delivery ETA " ++ v ++ str ".") ++
    (if p.intent = str "billing_issue" then
      [str "Billing audit update within 1–2 business days."] else []) ++
    (if p.intent = str "followup_existing" then
      [str "We will summarize prior actions and outcomes today."] else []) ++
    (if p.intent = str "cancellation_threat" then
      [str "Retention specialist will reach out today."] else [])
  let intro :=
    if p.intent = str "praise" then
      let agentNote :=
        match dictGet acts "agent_name" with
        | some v =>
          if v.isEmpty then str " — we really appreciate it."
          else str " — I'll make sure " ++ v ++ str " sees this."
        | none => str " — we really appreciate it."
      str "Thanks so much for the shout-out" ++ agentNote
    else if p.intent = str "missing_part" then
      str "Thanks for flagging this — we've shipped the missing part."
    else if p.intent = str "defect_report" then
      str "I know how frustrating hardware issues can be — here's what we've done."
    else if p.emotion = str "angry" then str "I'm truly sorry for the trouble you've experienced."
    else if p.emotion = str "confused" then str "I'm happy to clarify this for you."
    else if p.emotion = str "polite" then str "Thanks for reaching out — happy to help."
    else str "Thanks for reaching out — let's get this resolved."
  let nextJoined := joinSep (str " ") nextLines
  intro ++ str " What we did: " ++ joinSep (str " ") doneLines ++
    str " Next steps & timelines: " ++
    (if nextJoined.isEmpty then str "We'll keep you posted." else nextJoined)

/-- `compose_sections` from compose.py: the summary paragraph, the
bulleted fact list, and the closing line. -/
def composeSections (p : PerceptionResult) (acts : List (String × Str)) (facts : List Str) : Str :=
  composePara p acts ++
  (if facts.isEmpty then [] else str "\n- " ++ joinSep (str "\n- ") facts) ++
  str "\nIf there's anything else you'd like us to address, please let me know."

/-! ## Entrypoint (`handle_complaint` in handle.py) -/

/-- Observable result of one `handle_complaint` request (the reply is
the `compose_sections` output: the optional Gemini polish degrades to
the identity and the `steps` prints are debug-only). -/
structure HandleResult where
  perc : PerceptionResult
  acts : List (String × Str)
  facts : List Str
  reply : Str
  cnt : Counters
deriving Repr, DecidableEq

/-- `handle_complaint`: perceive, then run the ordered rule sequence;
`none` models an uncaught exception escaping the request. -/
def handleComplaint (userText : Str) (sent : Option ℚ) (env : Env) : Option HandleResult :=
  let p := perceive userText sent
  let rs0 : RS := ⟨[], [], env.cnt⟩
  let rs1 := orderLookupStep env p rs0
  let rs2 := ticketStep env p rs1
  let rs3 := refundStep env p rs2
  let rs4 := defectStep env p rs3
  match billingStep env p userText rs4 with
  | none => none
  | some rs5 =>
    let rs6 := missingStep env p rs5
    let rs7 := praiseStep env p userText rs6
    let rs8 := cancelStep env p rs7
    let rs9 := callbackStep env p rs8
    some ⟨p, rs9.acts, rs9.facts, composeSections p rs9.acts rs9.facts, rs9.cnt⟩

/-! ## Demo environment (the pre-seeded ORDERS table of actions.py) -/

/-- The in-memory demo order table, ages taken at module-load time. -/
def demoOrders : Str → Option Order := fun oid =>
  if oid = str "ORD12345" then some ⟨20, str "delivered", 30, 7999⟩
  else if oid = str "ORD9ZX88" then some ⟨45, str "delivered", 30, 12900⟩
  else if oid = str "ORD-7842-CA" then some ⟨13, str "carrier_damage_scan", 30, 14900⟩
  else if oid = str "US-55291" then some ⟨7, str "delivered", 30, 2900⟩
  else if oid = str "CA-993144" then some ⟨21, str "delivered", 30, 19900⟩
  else none

/-- A concrete environment for witness evaluations. -/
def demoEnv : Env :=
  ⟨demoOrders, str "2025-10-12", str "20251012",
   fun k => str "day+" ++ natStr k, ⟨1001, 0, 0, 0, 0, 0, 0⟩⟩

/-! ## Specification vocabulary used by the claims -/

/-- Lift a property through `Option`: holds vacuously on `none`. -/
def optionProp (P : α → Prop) : Option α → Prop
  | none => True
  | some a => P a

/-- Number of entries of an action map holding the given key. -/
def countKey (k : String) (d : List (String × Str)) : Nat :=
  (d.filter (fun kv => kv.1 = k)).length

/-- The keys of an action map are pairwise distinct (Python dict). -/
def NodupKeys (d : List (String × Str)) : Prop := (d.map Prod.fst).Nodup

/-- The strings of `fs` occur verbatim, in order, inside `t`. -/
def containsInOrder (t : Str) : List Str → Prop
  | [] => True
  | f :: fs => ∃ a b, t = a ++ f ++ b ∧ containsInOrder b fs

/-- The last character of `a`, else the fallback `prev`. -/
def lastOf (prev : Option Char) : Str → Option Char
  | [] => prev
  | c :: t => lastOf (some c) t

/-- The text contains, at some position preceded by a word boundary, a
capitalized word (maximal: followed by a non-word character), whitespace,
one of `from`/`in`/`at`, whitespace, and `support` at a word boundary —
the spec's description of the agent-name pattern. -/
def AgentPattern (text : Str) : Prop :=
  ∃ pre c w s1 kw s2 post,
    text = pre ++ c :: w ++ s1 ++ kw ++ s2 ++ str "support" ++ post ∧
    (pre = [] ∨ ∃ q pc, pre = q ++ [pc] ∧ isWordC pc = false) ∧
    isUpperC c = true ∧ w ≠ [] ∧ w.all isLowerC = true ∧
    s1 ≠ [] ∧ s1.all isSpaceC = true ∧ s2 ≠ [] ∧ s2.all isSpaceC = true ∧
    (kw = str "from" ∨ kw = str "in" ∨ kw = str "at") ∧
    (post = [] ∨ ∃ pc pr, post = pc :: pr ∧ isWordC pc = false)

/-! ## General lemmas -/

theorem toNat_ofNat_small {n : Nat} (h : n < 55296) : (Char.ofNat n).toNat = n := by
  have hv : n.isValidChar := Or.inl h
  rw [Char.ofNat, dif_pos hv]
  rfl

theorem toLower_eq_low {d : Char} (hd : d.toNat < 65) (x : Char) :
    x.toLower = d ↔ x = d := by
  show (if x.toNat ≥ 65 ∧ x.toNat ≤ 90 then Char.ofNat (x.toNat + 32) else x) = d ↔ x = d
  by_cases h : x.toNat ≥ 65 ∧ x.toNat ≤ 90
  · rw [if_pos h]
    constructor
    · intro he
      have h1 : (Char.ofNat (x.toNat + 32)).toNat = d.toNat := by rw [he]
      rw [toNat_ofNat_small (by omega)] at h1
      omega
    · intro he
      subst he
      omega
  · rw [if_neg h]

theorem mem_lowerStr_low {d : Char} (hd : d.toNat < 65) (t : Str) :
    d ∈ lowerStr t ↔ d ∈ t := by
  unfold lowerStr
  rw [List.mem_map]
  constructor
  · rintro ⟨x, hx, he⟩
    rwa [(toLower_eq_low hd x).mp he] at hx
  · intro h
    exact ⟨d, h, (toLower_eq_low hd d).mpr rfl⟩

theorem countChar_pos_iff (c : Char) (s : Str) : 1 ≤ countChar c s ↔ c ∈ s := by
  induction s with
  | nil => simp [countChar]
  | cons a t ih =>
    by_cases h : a = c
    · subst h
      simp [countChar, List.filter_cons]
    · simp only [countChar, List.filter_cons] at ih ⊢
      simp [h, ih, Ne.symm h]

/-! ## Emotion claims -/

theorem refineEmotion_angry (sent : Option ℚ) :
    refineEmotion (str "angry") sent = str "angry" := by
  cases sent with
  | none => rfl
  | some c =>
    simp only [refineEmotion]
    rw [if_neg (by decide)]

/-- Claim C3: for every text whose lexical baseline classifies the
emotion as angry, the final emotion returned by the classifier is angry,
for every behavior of the optional sentiment refinement. -/
theorem angryBaselineFinal (text : Str) (sent : Option ℚ)
    (h : emotionBaseline text = str "angry") :
    (perceive text sent).emotion = str "angry" := by
  show refineEmotion (emotionBaseline text) sent = str "angry"
  rw [h]
  exact refineEmotion_angry sent

/-- Witness for C3: a concrete angry-baseline text stays angry under a
strongly negative sentiment score. -/
theorem angryBaselineFinal_w :
    emotionBaseline (str "This is unacceptable!") = str "angry" ∧
    (perceive (str "This is unacceptable!") (some (-1 : ℚ))).emotion = str "angry" :=
  ⟨by decide, angryBaselineFinal _ _ (by decide)⟩

/-- Claim C2: an input with an exclamation mark and no
uncertainty-keyword-plus-question-mark pair is never classified
confused. -/
theorem bangNotConfused (text : Str) (sent : Option ℚ)
    (hbang : '!' ∈ text)
    (hno : ¬(containsAny confusionKeywords (lowerStr text) = true ∧ '?' ∈ text)) :
    (perceive text sent).emotion ≠ str "confused" := by
  have hbase : emotionBaseline text = str "angry" := by
    unfold emotionBaseline
    rw [if_neg, if_pos]
    · exact Or.inr ((countChar_pos_iff _ _).mpr ((mem_lowerStr_low (by decide) text).mpr hbang))
    · rintro ⟨hc, hq⟩
      exact hno ⟨hc, (mem_lowerStr_low (by decide) text).mp ((countChar_pos_iff _ _).mp hq)⟩
  have hfin : (perceive text sent).emotion = str "angry" := by
    show refineEmotion (emotionBaseline text) sent = str "angry"
    rw [hbase]
    exact refineEmotion_angry sent
  intro h
  rw [hfin] at h
  exact (by decide : ¬(str "angry" = str "confused")) h

/-- Witness for C2 at a concrete input. -/
theorem bangNotConfused_w :
    '!' ∈ str "great!" ∧
    ¬(containsAny confusionKeywords (lowerStr (str "great!")) = true ∧ '?' ∈ str "great!") ∧
    (perceive (str "great!") none).emotion ≠ str "confused" :=
  ⟨by decide, by decide, bangNotConfused _ none (by decide) (by decide)⟩

/-! ## Intent claim -/

/-- Claim C7: a text containing both a refund keyword and a praise
keyword classifies as refund_request (refund preempts praise). -/
theorem refundPreemptsPraise (text : Str) (sent : Option ℚ)
    (h1 : containsAny refundKeys (lowerStr text) = true)
    (h2 : containsAny praiseKeys (lowerStr text) = true) :
    (perceive text sent).intent = str "refund_request" := by
  show intentOf text (lowerStr text) = str "refund_request"
  unfold intentOf
  rw [if_pos h1]

/-- Witness for C7 at the spec's example text. -/
theorem refundPreemptsPraise_w :
    containsAny refundKeys (lowerStr (str "Thanks for everything, but I need a refund")) = true ∧
    containsAny praiseKeys (lowerStr (str "Thanks for everything, but I need a refund")) = true ∧
    (perceive (str "Thanks for everything, but I need a refund") none).intent =
      str "refund_request" :=
  ⟨by decide, by decide, refundPreemptsPraise _ none (by decide) (by decide)⟩

/-! ## Dictionary lemmas -/

theorem dictGet_dictSet_self (d : List (String × Str)) (k : String) (v : Str) :
    dictGet (dictSet d k v) k = some v := by
  induction d with
  | nil => simp [dictGet, dictSet]
  | cons kv t ih =>
    obtain ⟨k', v'⟩ := kv
    by_cases h : k' = k
    · simp [dictSet, dictGet, h]
    · simp [dictSet, dictGet, h, ih]

theorem dictGet_dictSet_ne (d : List (String × Str)) (k' k : String) (v : Str) (h : k' ≠ k) :
    dictGet (dictSet d k' v) k = dictGet d k := by
  induction d with
  | nil => simp [dictGet, dictSet, h]
  | cons kv t ih =>
    obtain ⟨k₀, v₀⟩ := kv
    by_cases h0 : k₀ = k'
    · subst h0
      simp [dictSet, dictGet, h]
    · by_cases h1 : k₀ = k <;> simp [dictSet, dictGet, h0, h1, ih, Ne.symm h]

/-! ## Search lemmas -/

theorem lastOf_append_last (prev : Option Char) (q : Str) (pc : Char) :
    lastOf prev (q ++ [pc]) = some pc := by
  induction q generalizing prev with
  | nil => rfl
  | cons a t ih => exact ih (some a)

theorem searchFrom_isSome_of (f : Option Char → Str → Option α) (prev : Option Char) (a b : Str)
    (h : (f (lastOf prev a) b).isSome = true) :
    (searchFrom f prev (a ++ b)).isSome = true := by
  induction a generalizing prev with
  | nil =>
    cases b with
    | nil => exact h
    | cons c t =>
      show (match f prev (c :: t) with
        | some r => some r
        | none => searchFrom f (some c) t).isSome = true
      cases hf : f prev (c :: t) with
      | some r => rfl
      | none =>
        simp only [lastOf] at h
        rw [hf] at h
        exact absurd h (by simp)
  | cons x a' ih =>
    rw [List.cons_append]
    show (match f prev (x :: (a' ++ b)) with
      | some r => some r
      | none => searchFrom f (some x) (a' ++ b)).isSome = true
    cases hf : f prev (x :: (a' ++ b)) with
    | some r => rfl
    | none => exact ih (some x) h

theorem searchFrom_some_ex (f : Option Char → Str → Option α) (prev : Option Char) (s : Str)
    (r : α) (h : searchFrom f prev s = some r) : ∃ pv s', f pv s' = some r := by
  induction s generalizing prev with
  | nil => exact ⟨prev, [], h⟩
  | cons c t ih =>
    revert h
    show (match f prev (c :: t) with
      | some x => some x
      | none => searchFrom f (some c) t) = some r → _
    cases hf : f prev (c :: t) with
    | some x =>
      intro h
      cases h
      exact ⟨prev, c :: t, hf⟩
    | none =>
      intro h
      exact ih (some c) h

/-! ## Prefix and takeWhile lemmas -/

theorem isPfx_append_self (l r : Str) : isPfx l (l ++ r) = true := by
  induction l with
  | nil => rfl
  | cons a t ih => simp [isPfx, ih]

theorem takeWhile_append_all (p : Char → Bool) (w rest : Str) (h : ∀ c ∈ w, p c = true) :
    (w ++ rest).takeWhile p = w ++ rest.takeWhile p := by
  induction w with
  | nil => simp
  | cons a t ih =>
    simp only [List.cons_append, List.takeWhile_cons, h a (by simp), if_true]
    rw [ih (fun c hc => h c (by simp [hc]))]

theorem takeWhile_append_eq (p : Char → Bool) (w : Str) (c : Char) (t : Str)
    (h : ∀ x ∈ w, p x = true) (hc : p c = false) :
    (w ++ c :: t).takeWhile p = w := by
  rw [takeWhile_append_all p w _ h]
  simp [List.takeWhile_cons, hc]

/-! ## Entity-map lookup lemmas -/

theorem extract_agent_none (t i : Str) :
    dictGet (extractEntities t i) "agent_name" = none := by
  simp only [extractEntities]
  repeat' split
  all_goals simp [dictGet_dictSet_ne, dictGet]

theorem extract_amount (t i : Str) (a : Str)
    (h : dictGet (extractEntities t i) "amount" = some a) :
    ∃ g, amountSearch t = some g ∧ a = stripCommas g := by
  cases hA : amountSearch t with
  | none =>
    exfalso
    revert h
    simp only [extractEntities, hA]
    repeat' split
    all_goals simp [dictGet_dictSet_ne, dictGet]
  | some g =>
    refine ⟨g, rfl, ?_⟩
    revert h
    simp only [extractEntities, hA]
    repeat' split
    all_goals simp [dictGet_dictSet_ne, dictGet_dictSet_self, dictGet]
    all_goals (intro h; exact h.symm)

theorem extract_phone_none (t i raw : Str) (hs : phoneSearch t = some raw)
    (hbad : isIsoDate raw = true ∨ digitCount raw < 10 ∨ 15 < digitCount raw) :
    dictGet (extractEntities t i) "phone" = none := by
  simp only [extractEntities, hs]
  repeat' split
  all_goals try simp [dictGet_dictSet_ne, dictGet]
  all_goals (exfalso; rcases hbad with h | h | h <;> simp_all <;> omega)

/-! ## Phone guard claim -/

/-- Claim C10: only the first `PHONE_RE` match is ever considered: when
that first match is an ISO date or its digit count falls outside
`[10, 15]`, no phone entity is extracted for the whole text. -/
theorem phoneFirstMatchOnly (text : Str) (sent : Option ℚ) (raw : Str)
    (hs : phoneSearch text = some raw)
    (hbad : isIsoDate raw = true ∨ digitCount raw < 10 ∨ 15 < digitCount raw) :
    dictGet (perceive text sent).entities "phone" = none :=
  extract_phone_none text _ raw hs hbad

/-- Witness for C10: the first phone-pattern match is the ISO date, so
no phone is extracted even though the text later holds a valid ten-digit
number that the pattern would accept on its own. -/
theorem phoneFirstMatchOnly_w :
    phoneSearch (str "2024-01-15 call 0123456789") = some (str "2024-01-15") ∧
    isIsoDate (str "2024-01-15") = true ∧
    phoneSearch (str "0123456789") = some (str "0123456789") ∧
    digitCount (str "0123456789") = 10 ∧
    dictGet (perceive (str "2024-01-15 call 0123456789") none).entities "phone" = none :=
  ⟨by decide, by decide, by decide, by decide,
   phoneFirstMatchOnly (str "2024-01-15 call 0123456789") none (str "2024-01-15")
     (by decide) (Or.inl (by decide))⟩

/-! ## Amount numeral soundness (claim C8 machinery) -/

theorem isDigitC_ne_comma {a : Char} (h : isDigitC a = true) : a ≠ ',' := by
  intro he
  rw [he] at h
  exact absurd h (by decide)

theorem isDigitC_ne_dot {a : Char} (h : isDigitC a = true) : a ≠ '.' := by
  intro he
  rw [he] at h
  exact absurd h (by decide)

theorem filter_comma_of_digits (ds : Str) (h : ds.all isDigitC = true) :
    ds.filter (fun c => !(c = ',')) = ds := by
  rw [List.filter_eq_self]
  intro a ha
  have hd := (List.all_eq_true.mp h) a ha
  simp [isDigitC_ne_comma hd]

theorem takeWhile_eq_self_of_all (p : Char → Bool) (l : Str) (h : ∀ c ∈ l, p c = true) :
    l.takeWhile p = l := by
  have := takeWhile_append_all p l [] h
  simpa using this

theorem parse_digits_isSome (ds : Str) (h1 : ds ≠ []) (h2 : ds.all isDigitC = true) :
    (parseMoneyStr ds).isSome = true := by
  simp only [parseMoneyStr]
  rw [takeWhile_eq_self_of_all _ _ (fun c hc => (List.all_eq_true.mp h2) c hc)]
  simp [h1, List.isEmpty_iff]

theorem parse_digits_frac_isSome (ds f : Str) (h1 : ds ≠ []) (h2 : ds.all isDigitC = true)
    (h3 : f.all isDigitC = true) (h4 : f.length = 1 ∨ f.length = 2) :
    (parseMoneyStr (ds ++ '.' :: f)).isSome = true := by
  simp only [parseMoneyStr]
  rw [takeWhile_append_eq _ _ _ _ (fun c hc => (List.all_eq_true.mp h2) c hc) (by decide)]
  rw [List.drop_left]
  rcases h4 with h4 | h4 <;>
    simp [h1, List.isEmpty_iff, h3, h4]

theorem commaGroups_digits (s : Str) :
    ((commaGroups s).1.filter (fun c => !(c = ','))).all isDigitC = true := by
  induction s using commaGroups.induct with
  | case1 d1 d2 d3 r hds ih =>
    rw [commaGroups, if_pos hds]
    simp only [Bool.and_eq_true] at hds
    have n1 := isDigitC_ne_comma hds.1.1
    have n2 := isDigitC_ne_comma hds.1.2
    have n3 := isDigitC_ne_comma hds.2
    simp [List.filter_cons, n1, n2, n3, hds.1.1, hds.1.2, hds.2, ih]
  | case2 d1 d2 d3 r hds =>
    rw [commaGroups, if_neg hds]
    simp
  | case3 s hne =>
    have h0 : commaGroups s = ([], s) := by
      rw [commaGroups.eq_def]
      split
      · exact absurd rfl (hne _ _ _ _)
      · rfl
    rw [h0]
    simp

theorem all_takeWhile (p : Char → Bool) (l : Str) : (l.takeWhile p).all p = true := by
  rw [List.all_eq_true]
  intro c hc
  exact List.mem_takeWhile_imp hc

theorem amountAlt1_parses (s g : Str) (h : amountAlt1 s = some g) :
    (parseMoneyStr (stripCommas g)).isSome = true := by
  simp only [amountAlt1] at h
  split at h
  next hrun => exact absurd h (by simp)
  next hrun =>
    split at h
    next r heq =>
      split at h
      next hfs => exact absurd h (by simp)
      next hfs =>
        cases h
        simp only [Bool.or_eq_true, not_or, decide_eq_true_eq] at hrun
        have hrunAll : (s.takeWhile isDigitC).all isDigitC = true := all_takeWhile _ _
        have hfsAll : (r.takeWhile isDigitC).all isDigitC = true := all_takeWhile _ _
        have hfAll : ((r.takeWhile isDigitC).take 2).all isDigitC = true := by
          rw [List.all_eq_true] at hfsAll ⊢
          exact fun c hc => hfsAll c (List.take_subset _ _ hc)
        have hC := commaGroups_digits (s.drop (s.takeWhile isDigitC).length)
        show (parseMoneyStr (List.filter _ _)).isSome = true
        rw [List.filter_append, List.filter_append]
        rw [filter_comma_of_digits _ hrunAll]
        have hdot : (('.' :: (r.takeWhile isDigitC).take 2).filter (fun c => !(c = ','))) =
            '.' :: (r.takeWhile isDigitC).take 2 := by
          rw [List.filter_eq_self]
          intro a ha
          rcases List.mem_cons.mp ha with h | h
          · subst h; decide
          · have := (List.all_eq_true.mp hfAll) a h
            simp [isDigitC_ne_comma this]
        rw [hdot]
        apply parse_digits_frac_isSome
        · intro hcon
          have := List.append_eq_nil.mp hcon
          have h0 : (s.takeWhile isDigitC).length = 0 := by rw [this.1]; rfl
          exact hrun.1 h0
        · rw [List.all_append]
          exact by rw [hrunAll, hC]; rfl
        · exact hfAll
        · have hlen : ((r.takeWhile isDigitC).take 2).length =
              min 2 (r.takeWhile isDigitC).length := List.length_take _ _
          have hne : ¬((r.takeWhile isDigitC).length = 0) := by
            simpa using hfs
          omega
    next heq => exact absurd h (by simp)

theorem amountAlt2_parses (s g : Str) (h : amountAlt2 s = some g) :
    (parseMoneyStr (stripCommas g)).isSome = true := by
  simp only [amountAlt2] at h
  split at h
  · exact absurd h (by simp)
  next hrun =>
    have hrunAll : (s.takeWhile isDigitC).all isDigitC = true := all_takeWhile _ _
    have hrunNe : s.takeWhile isDigitC ≠ [] := by
      intro hcon
      rw [hcon] at hrun
      exact hrun (by rfl)
    split at h
    next r heq =>
      split at h
      · cases h
        show (parseMoneyStr (List.filter _ _)).isSome = true
        rw [filter_comma_of_digits _ hrunAll]
        exact parse_digits_isSome _ hrunNe hrunAll
      · cases h
        have hfsAll : (r.takeWhile isDigitC).all isDigitC = true := all_takeWhile _ _
        have hfAll : ((r.takeWhile isDigitC).take 2).all isDigitC = true := by
          rw [List.all_eq_true] at hfsAll ⊢
          exact fun c hc => hfsAll c (List.take_subset _ _ hc)
        show (parseMoneyStr (List.filter _ _)).isSome = true
        rw [List.filter_append, filter_comma_of_digits _ hrunAll]
        have hdot : (('.' :: (r.takeWhile isDigitC).take 2).filter (fun c => !(c = ','))) =
            '.' :: (r.takeWhile isDigitC).take 2 := by
          rw [List.filter_eq_self]
          intro a ha
          rcases List.mem_cons.mp ha with h | h
          · subst h; decide
          · have := (List.all_eq_true.mp hfAll) a h
            simp [isDigitC_ne_comma this]
        rw [hdot]
        apply parse_digits_frac_isSome _ _ hrunNe hrunAll hfAll
        rename_i hfs
        have hlen : ((r.takeWhile isDigitC).take 2).length =
            min 2 (r.takeWhile isDigitC).length := List.length_take _ _
        have hne : ¬((r.takeWhile isDigitC).length = 0) := by simpa using hfs
        omega
    next heq =>
      cases h
      show (parseMoneyStr (List.filter _ _)).isSome = true
      rw [filter_comma_of_digits _ hrunAll]
      exact parse_digits_isSome _ hrunNe hrunAll

theorem amountGroup_parses (s g : Str) (h : amountGroup s = some g) :
    (parseMoneyStr (stripCommas g)).isSome = true := by
  simp only [amountGroup] at h
  cases h1 : amountAlt1 s with
  | some g1 =>
    rw [h1] at h
    have hg : g1 = g := Option.some.inj (by simpa [Option.orElse] using h)
    subst hg
    exact amountAlt1_parses s g1 h1
  | none =>
    rw [h1] at h
    simp only [Option.orElse] at h
    exact amountAlt2_parses s g h

theorem amountEntity_parses (t i a : Str)
    (h : dictGet (extractEntities t i) "amount" = some a) :
    (parseMoneyStr a).isSome = true := by
  obtain ⟨g, hg, ha⟩ := extract_amount t i a h
  obtain ⟨pv, s', hm⟩ := searchFrom_some_ex _ _ _ _ hg
  have hgrp : ∃ s'', amountGroup s'' = some g := by
    revert hm
    simp only [matchAmountAt]
    split
    · exact fun hm => ⟨_, hm⟩
    · exact fun hm => ⟨_, hm⟩
  obtain ⟨s'', hgrp⟩ := hgrp
  rw [ha]
  exact amountGroup_parses _ _ hgrp

/-! ## Failure-semantics claim -/

theorem billingStep_isSome (env : Env) (p : PerceptionResult) (userText : Str) (rs : RS)
    (hAmt : ∀ a, dictGet p.entities "amount" = some a → (parseMoneyStr a).isSome = true) :
    (billingStep env p userText rs).isSome = true := by
  unfold billingStep
  split
  · split
    next a heqA =>
      split
      · rfl
      · split
        next k hp =>
          dsimp only
          split
          · rfl
          · rfl
        next hp =>
          dsimp only
          split
          · exact absurd (hAmt a heqA) (by simp [hp])
          · rfl
    next heqA => rfl
  · rfl

/-- Claim C8: no orchestration rule raises for any input text: the
billing rule's numeric conversion of an extracted amount entity cannot
fail, because every amount the extractor produces is a well-formed
numeral, so `handle_complaint` always returns a reply. -/
theorem handleNeverRaises (text : Str) (sent : Option ℚ) (env : Env) :
    (handleComplaint text sent env).isSome = true := by
  have hAmt : ∀ a, dictGet (perceive text sent).entities "amount" = some a →
      (parseMoneyStr a).isSome = true := fun a ha => amountEntity_parses text _ a ha
  simp only [handleComplaint]
  cases hbs : billingStep env (perceive text sent) text
      (defectStep env (perceive text sent)
        (refundStep env (perceive text sent)
          (ticketStep env (perceive text sent)
            (orderLookupStep env (perceive text sent) ⟨[], [], env.cnt⟩)))) with
  | none =>
    have hb := billingStep_isSome env (perceive text sent) text
      (defectStep env (perceive text sent)
        (refundStep env (perceive text sent)
          (ticketStep env (perceive text sent)
            (orderLookupStep env (perceive text sent) ⟨[], [], env.cnt⟩)))) hAmt
    rw [hbs] at hb
    exact absurd hb (by simp)
  | some rs5 =>
    rfl

/-! ## Composer claim -/

theorem cio_join (sep : Str) (fs : List Str) (x y : Str) :
    containsInOrder (x ++ joinSep sep fs ++ y) fs := by
  induction fs generalizing x y with
  | nil => trivial
  | cons f fs' ih =>
    cases fs' with
    | nil => exact ⟨x, y, rfl, trivial⟩
    | cons g gs =>
      refine ⟨x, sep ++ joinSep sep (g :: gs) ++ y, ?_, ih sep y⟩
      show x ++ joinSep sep (f :: g :: gs) ++ y = _
      simp [joinSep, List.append_assoc]

/-- Claim C9: every string of the fact list appears verbatim and in the
same relative order inside the composed reply; the composer only adds
prose before and after the fact lines. -/
theorem composePreservesFacts (p : PerceptionResult) (acts : List (String × Str))
    (facts : List Str) : containsInOrder (composeSections p acts facts) facts := by
  cases facts with
  | nil => trivial
  | cons f fs =>
    show containsInOrder (composePara p acts ++
      (if (f :: fs).isEmpty then [] else str "\n- " ++ joinSep (str "\n- ") (f :: fs)) ++
      str "\nIf there's anything else you'd like us to address, please let me know.") (f :: fs)
    rw [if_neg (by simp)]
    have h := cio_join (str "\n- ") (f :: fs) (composePara p acts ++ str "\n- ")
      (str "\nIf there's anything else you'd like us to address, please let me know.")
    simpa [List.append_assoc] using h

/-! ## Agent-name claim -/

theorem isSpaceC_not_lower {c : Char} (h : isSpaceC c = true) : isLowerC c = false := by
  simp only [isSpaceC, Bool.or_eq_true, decide_eq_true_eq] at h
  rcases h with ((((h | h) | h) | h) | h) | h <;> subst h <;> decide

theorem isSpaceC_not_word {c : Char} (h : isSpaceC c = true) : isWordC c = false := by
  simp only [isSpaceC, Bool.or_eq_true, decide_eq_true_eq] at h
  rcases h with ((((h | h) | h) | h) | h) | h <;> subst h <;> decide

theorem takeWhile_all_stop (p : Char → Bool) (w rest : Str) (hw : w.all p = true)
    (hr : rest = [] ∨ ∃ c t, rest = c :: t ∧ p c = false) :
    (w ++ rest).takeWhile p = w := by
  rcases hr with rfl | ⟨c, t, rfl, hc⟩
  · rw [List.append_nil]
    have := takeWhile_append_all p w [] (fun x hx => List.all_eq_true.mp hw x hx)
    simpa using this
  · exact takeWhile_append_eq p w c t (fun x hx => List.all_eq_true.mp hw x hx) hc

theorem matchAgentAt_shape (pv : Option Char) (s nm : Str)
    (h : matchAgentAt pv s = some nm) : nm ≠ [] := by
  simp only [matchAgentAt] at h
  repeat' split at h
  all_goals first
    | exact absurd h (by simp : ¬(none = some nm))
    | (intro hn; rw [hn] at h; exact absurd h (by simp))

theorem matchAgentAt_pattern (pv : Option Char) (c : Char) (w s1 kw s2 post : Str)
    (hpv : wordB pv = true)
    (hc : isUpperC c = true) (hw : w ≠ []) (hwl : w.all isLowerC = true)
    (hs1 : s1 ≠ []) (hs1s : s1.all isSpaceC = true)
    (hs2 : s2 ≠ []) (hs2s : s2.all isSpaceC = true)
    (hkw : kw = str "from" ∨ kw = str "in" ∨ kw = str "at")
    (hpost : post = [] ∨ ∃ pc pr, post = pc :: pr ∧ isWordC pc = false) :
    matchAgentAt pv (c :: (w ++ (s1 ++ (kw ++ (s2 ++ (str "support" ++ post)))))) =
      some (c :: w) := by
  obtain ⟨sc, s1', rfl⟩ : ∃ sc s1', s1 = sc :: s1' := by
    cases s1 with
    | nil => exact absurd rfl hs1
    | cons a b => exact ⟨a, b, rfl⟩
  obtain ⟨tc, s2', rfl⟩ : ∃ tc s2', s2 = tc :: s2' := by
    cases s2 with
    | nil => exact absurd rfl hs2
    | cons a b => exact ⟨a, b, rfl⟩
  have hsc : isSpaceC sc = true := List.all_eq_true.mp hs1s sc (by simp)
  have htc : isSpaceC tc = true := List.all_eq_true.mp hs2s tc (by simp)
  have hs1all : (sc :: s1').all isSpaceC = true := hs1s
  have hs2all : (tc :: s2').all isSpaceC = true := hs2s
  simp only [List.cons_append, matchAgentAt, hpv, if_true]
  have hrun : List.takeWhile isLowerC
      (w ++ sc :: (s1' ++ (kw ++ tc :: (s2' ++ (str "support" ++ post))))) = w :=
    takeWhile_append_eq _ _ _ _ (fun x hx => List.all_eq_true.mp hwl x hx)
      (isSpaceC_not_lower hsc)
  have hdrop1 : List.drop w.length
      (w ++ sc :: (s1' ++ (kw ++ tc :: (s2' ++ (str "support" ++ post))))) =
      sc :: (s1' ++ (kw ++ tc :: (s2' ++ (str "support" ++ post)))) := List.drop_left _ _
  have hcond1 : (decide (1 ≤ w.length) &&
      endB (sc :: (s1' ++ (kw ++ tc :: (s2' ++ (str "support" ++ post)))))) = true := by
    have h1 : 0 < w.length := List.length_pos.mpr hw
    have h2 : endB (sc :: (s1' ++ (kw ++ tc :: (s2' ++ (str "support" ++ post))))) = true := by
      show (!isWordC sc) = true
      rw [isSpaceC_not_word hsc]
      rfl
    rw [h2]
    simp
    omega
  have hsp1 : List.takeWhile isSpaceC
      (sc :: (s1' ++ (kw ++ tc :: (s2' ++ (str "support" ++ post))))) = sc :: s1' := by
    show List.takeWhile isSpaceC
      ((sc :: s1') ++ (kw ++ tc :: (s2' ++ (str "support" ++ post)))) = sc :: s1'
    apply takeWhile_all_stop _ _ _ hs1all
    rcases hkw with rfl | rfl | rfl
    · exact Or.inr ⟨'f', _, rfl, by decide⟩
    · exact Or.inr ⟨'i', _, rfl, by decide⟩
    · exact Or.inr ⟨'a', _, rfl, by decide⟩
  have hdrop2 : List.drop (sc :: s1').length
      (sc :: (s1' ++ (kw ++ tc :: (s2' ++ (str "support" ++ post))))) =
      kw ++ tc :: (s2' ++ (str "support" ++ post)) := by
    show List.drop (sc :: s1').length
      ((sc :: s1') ++ (kw ++ tc :: (s2' ++ (str "support" ++ post)))) = _
    exact List.drop_left _ _
  have hkwt : kwTail (kw ++ tc :: (s2' ++ (str "support" ++ post))) =
      some (tc :: (s2' ++ (str "support" ++ post))) := by
    rcases hkw with rfl | rfl | rfl <;> rfl
  have hsp2 : List.takeWhile isSpaceC
      (tc :: (s2' ++ (str "support" ++ post))) = tc :: s2' := by
    show List.takeWhile isSpaceC ((tc :: s2') ++ (str "support" ++ post)) = tc :: s2'
    exact takeWhile_all_stop _ _ _ hs2all (Or.inr ⟨'s', _, rfl, by decide⟩)
  have hdrop3 : List.drop (tc :: s2').length (tc :: (s2' ++ (str "support" ++ post))) =
      str "support" ++ post := by
    show List.drop (tc :: s2').length ((tc :: s2') ++ (str "support" ++ post)) = _
    exact List.drop_left _ _
  have hend : endB (List.drop 7 (str "support" ++ post)) = true := by
    show endB post = true
    rcases hpost with rfl | h
    · rfl
    · obtain ⟨pc, pr, rfl, hpc⟩ := h
      show (!isWordC pc) = true
      rw [hpc]
      rfl
  simp only [hc, if_true, hrun, hdrop1, hcond1, hsp1, hdrop2, hkwt, hsp2, hdrop3, hend,
    isPfx_append_self, Bool.and_self, eq_self_iff_true,
    (show 1 ≤ (sc :: s1').length by simp), (show 1 ≤ (tc :: s2').length by simp)]

/-- Claim C4 (amended): when the text contains the agent pattern,
`detect_agent_name` captures a nonempty name, but the entity map of the
`PerceptionResult` never holds an agent_name key (the name reaches only
the action map, via the praise flow of the orchestrator). -/
theorem agentNameViaDetect (text : Str) (sent : Option ℚ) (hp : AgentPattern text) :
    (∃ nm, detectAgentName text = some nm ∧ nm ≠ []) ∧
    dictGet (perceive text sent).entities "agent_name" = none := by
  refine ⟨?_, extract_agent_none text _⟩
  obtain ⟨pre, c, w, s1, kw, s2, post, heq, hpre, hc, hw, hwl, hs1, hs1s, hs2, hs2s,
    hkw, hpost⟩ := hp
  have hwb : wordB (lastOf none pre) = true := by
    rcases hpre with rfl | ⟨q, pc, rfl, hpc⟩
    · rfl
    · rw [lastOf_append_last]
      show (!isWordC pc) = true
      rw [hpc]
      rfl
  have hsome : (detectAgentName text).isSome = true := by
    rw [heq]
    show (searchFrom matchAgentAt none
      (pre ++ c :: w ++ s1 ++ kw ++ s2 ++ str "support" ++ post)).isSome = true
    have hassoc : pre ++ c :: w ++ s1 ++ kw ++ s2 ++ str "support" ++ post =
        pre ++ (c :: (w ++ (s1 ++ (kw ++ (s2 ++ (str "support" ++ post)))))) := by
      simp [List.append_assoc]
    rw [hassoc]
    apply searchFrom_isSome_of
    rw [matchAgentAt_pattern (lastOf none pre) c w s1 kw s2 post hwb hc hw hwl hs1 hs1s
      hs2 hs2s hkw hpost]
    rfl
  obtain ⟨nm, hnm⟩ := Option.isSome_iff_exists.mp hsome
  obtain ⟨pv, s', hm⟩ := searchFrom_some_ex _ _ _ _ hnm
  exact ⟨nm, hnm, matchAgentAt_shape _ _ _ hm⟩

/-- Counterexample to C4 as stated: this text contains a capitalized
word followed by "from support", yet the perception entity map holds no
agent_name key. -/
theorem agentEntityCounterexample :
    AgentPattern (str "Alice from support helped me") ∧
    dictGet (perceive (str "Alice from support helped me") none).entities "agent_name" =
      none := by
  constructor
  · exact ⟨[], 'A', str "lice", [' '], str "from", [' '], str " helped me",
      by decide, Or.inl rfl, by decide, by decide, by decide, by decide, by decide,
      by decide, by decide, Or.inl rfl, Or.inr ⟨' ', str "helped me", by decide, by decide⟩⟩
  · decide

/-- Witness for the amended C4 at a concrete input. -/
theorem agentNameViaDetect_w :
    (∃ nm, detectAgentName (str "ask Bob at support") = some nm ∧ nm ≠ []) ∧
    dictGet (perceive (str "ask Bob at support") none).entities "agent_name" = none :=
  agentNameViaDetect (str "ask Bob at support") none
    ⟨str "ask ", 'B', str "ob", [' '], str "at", [' '], [],
     by decide, Or.inr ⟨str "ask", ' ', by decide, by decide⟩, by decide, by decide,
     by decide, by decide, by decide, by decide, by decide, Or.inr (Or.inr rfl), Or.inl rfl⟩

/-! ## Orchestration step lemmas and the credit claim -/

theorem ensure_acts_get {env : Env} {a : List (String × Str)} {f : List Str} {amt : Nat}
    {c : Counters} {k : String} (hk : ¬(k = "credit_id")) :
    dictGet (ensureLoyaltyCreditOnce env a f amt c).1 k = dictGet a k := by
  simp only [ensureLoyaltyCreditOnce]
  repeat' split
  all_goals
    simp [dictGet_dictSet_ne, (show ¬("credit_id" = k) from fun h => hk h.symm)]

theorem ensure_credits_le (env : Env) (a : List (String × Str)) (f : List Str) (amt : Nat)
    (c : Counters) :
    (ensureLoyaltyCreditOnce env a f amt c).2.2.credits ≤ c.credits + 1 := by
  simp only [ensureLoyaltyCreditOnce]
  repeat' split
  all_goals simp [addLoyaltyCredit]

theorem orderLookup_acts (env : Env) (p : PerceptionResult) (rs : RS) :
    (orderLookupStep env p rs).acts = rs.acts := by
  simp only [orderLookupStep]
  repeat' split
  all_goals rfl

theorem orderLookup_cnt (env : Env) (p : PerceptionResult) (rs : RS) :
    (orderLookupStep env p rs).cnt = rs.cnt := by
  simp only [orderLookupStep]
  repeat' split
  all_goals rfl

theorem ticketStep_get {k : String} (hk : ¬(k = "ticket_id")) (env : Env)
    (p : PerceptionResult) (rs : RS) :
    dictGet (ticketStep env p rs).acts k = dictGet rs.acts k := by
  simp only [ticketStep]
  repeat' split
  all_goals
    simp [dictGet_dictSet_ne, (show ¬("ticket_id" = k) from fun h => hk h.symm)]

theorem ticketStep_credits (env : Env) (p : PerceptionResult) (rs : RS) :
    (ticketStep env p rs).cnt.credits = rs.cnt.credits := by
  simp only [ticketStep]
  repeat' split
  all_goals simp [createTicket]

theorem refundStep_get {k : String} (hk1 : ¬(k = "refund_id")) (hk2 : ¬(k = "refund_eta"))
    (hk3 : ¬(k = "credit_id")) (env : Env) (p : PerceptionResult) (rs : RS) :
    dictGet (refundStep env p rs).acts k = dictGet rs.acts k := by
  simp only [refundStep]
  repeat' split
  all_goals
    simp [dictGet_dictSet_ne, ensure_acts_get hk3,
      (show ¬("refund_id" = k) from fun h => hk1 h.symm),
      (show ¬("refund_eta" = k) from fun h => hk2 h.symm)]

theorem refundStep_id (env : Env) (p : PerceptionResult) (rs : RS)
    (h : ¬(p.intent = str "refund_request")) : refundStep env p rs = rs := by
  simp [refundStep, h]

theorem refundStep_credits_le (env : Env) (p : PerceptionResult) (rs : RS) :
    (refundStep env p rs).cnt.credits ≤ rs.cnt.credits + 1 := by
  simp only [refundStep]
  repeat' split
  all_goals simp [issueRefund]
  all_goals exact ensure_credits_le _ _ _ _ _

theorem defectStep_get {k : String} (hk1 : ¬(k = "replacement_id"))
    (hk2 : ¬(k = "delivery_eta")) (env : Env) (p : PerceptionResult) (rs : RS) :
    dictGet (defectStep env p rs).acts k = dictGet rs.acts k := by
  simp only [defectStep]
  repeat' split
  all_goals
    simp [dictGet_dictSet_ne,
      (show ¬("replacement_id" = k) from fun h => hk1 h.symm),
      (show ¬("delivery_eta" = k) from fun h => hk2 h.symm)]

theorem defectStep_id (env : Env) (p : PerceptionResult) (rs : RS)
    (h : ¬(p.intent = str "defect_report")) : defectStep env p rs = rs := by
  simp [defectStep, h]

theorem defectStep_credits (env : Env) (p : PerceptionResult) (rs : RS) :
    (defectStep env p rs).cnt.credits = rs.cnt.credits := by
  simp only [defectStep]
  repeat' split
  all_goals simp [createReplacement]

theorem billingStep_get {k : String} (hk : ¬(k = "credit_id")) (env : Env)
    (p : PerceptionResult) (userText : Str) (rs rs' : RS)
    (h : billingStep env p userText rs = some rs') :
    dictGet rs'.acts k = dictGet rs.acts k := by
  simp only [billingStep] at h
  repeat' split at h
  all_goals first
    | exact absurd h (by simp : ¬(none = some rs'))
    | (cases h; simp [ensure_acts_get hk])

theorem billingStep_id (env : Env) (p : PerceptionResult) (userText : Str) (rs : RS)
    (h : ¬(p.intent = str "billing_issue")) : billingStep env p userText rs = some rs := by
  simp [billingStep, h]

theorem billingStep_credits_le (env : Env) (p : PerceptionResult) (userText : Str)
    (rs rs' : RS) (h : billingStep env p userText rs = some rs') :
    rs'.cnt.credits ≤ rs.cnt.credits + 1 := by
  simp only [billingStep] at h
  repeat' split at h
  all_goals first
    | exact absurd h (by simp : ¬(none = some rs'))
    | (cases h; exact ensure_credits_le _ _ _ _ _)
    | (cases h; exact Nat.le_succ _)

theorem missingStep_get {k : String} (hk1 : ¬(k = "shipment_id"))
    (hk2 : ¬(k = "shipment_eta")) (hk3 : ¬(k = "credit_id")) (env : Env)
    (p : PerceptionResult) (rs : RS) :
    dictGet (missingStep env p rs).acts k = dictGet rs.acts k := by
  simp only [missingStep]
  repeat' split
  all_goals
    simp [dictGet_dictSet_ne, ensure_acts_get hk3,
      (show ¬("shipment_id" = k) from fun h => hk1 h.symm),
      (show ¬("shipment_eta" = k) from fun h => hk2 h.symm)]

theorem missingStep_id (env : Env) (p : PerceptionResult) (rs : RS)
    (h : ¬(p.intent = str "missing_part")) : missingStep env p rs = rs := by
  simp [missingStep, h]

theorem missingStep_credits_le (env : Env) (p : PerceptionResult) (rs : RS) :
    (missingStep env p rs).cnt.credits ≤ rs.cnt.credits + 1 := by
  simp only [missingStep]
  split
  · exact le_trans (ensure_credits_le _ _ _ _ _) (by simp [shipMissingPart])
  · omega

theorem praiseStep_get {k : String} (hk1 : ¬(k = "agent_name")) (hk3 : ¬(k = "credit_id"))
    (env : Env) (p : PerceptionResult) (userText : Str) (rs : RS) :
    dictGet (praiseStep env p userText rs).acts k = dictGet rs.acts k := by
  simp only [praiseStep]
  repeat' split
  all_goals
    simp [dictGet_dictSet_ne, ensure_acts_get hk3,
      (show ¬("agent_name" = k) from fun h => hk1 h.symm)]

theorem praiseStep_id (env : Env) (p : PerceptionResult) (userText : Str) (rs : RS)
    (h : ¬(p.intent = str "praise")) : praiseStep env p userText rs = rs := by
  simp [praiseStep, h]

theorem praiseStep_credits_le (env : Env) (p : PerceptionResult) (userText : Str) (rs : RS) :
    (praiseStep env p userText rs).cnt.credits ≤ rs.cnt.credits + 1 := by
  simp only [praiseStep]
  split
  · repeat' split
    all_goals exact le_trans (ensure_credits_le _ _ _ _ _) (by simp)
  · omega

theorem cancelStep_get {k : String} (hk1 : ¬(k = "escalation_id")) (hk3 : ¬(k = "credit_id"))
    (env : Env) (p : PerceptionResult) (rs : RS) :
    dictGet (cancelStep env p rs).acts k = dictGet rs.acts k := by
  simp only [cancelStep]
  repeat' split
  all_goals
    simp [dictGet_dictSet_ne,
      (show ¬("escalation_id" = k) from fun h => hk1 h.symm),
      (show ¬("credit_id" = k) from fun h => hk3 h.symm)]

theorem cancelStep_id (env : Env) (p : PerceptionResult) (rs : RS)
    (h : ¬(p.intent = str "cancellation_threat")) : cancelStep env p rs = rs := by
  simp [cancelStep, h]

theorem cancelStep_credits_le (env : Env) (p : PerceptionResult) (rs : RS) :
    (cancelStep env p rs).cnt.credits ≤ rs.cnt.credits + 1 := by
  simp only [cancelStep]
  repeat' split
  all_goals simp [addLoyaltyCredit, escalate]

theorem callbackStep_get {k : String} (hk : ¬(k = "callback")) (env : Env)
    (p : PerceptionResult) (rs : RS) :
    dictGet (callbackStep env p rs).acts k = dictGet rs.acts k := by
  simp only [callbackStep]
  repeat' split
  all_goals
    simp [dictGet_dictSet_ne, (show ¬("callback" = k) from fun h => hk h.symm)]

theorem callbackStep_credits (env : Env) (p : PerceptionResult) (rs : RS) :
    (callbackStep env p rs).cnt.credits = rs.cnt.credits := by
  simp only [callbackStep]
  repeat' split
  all_goals simp [scheduleCallback]

theorem mem_keys_dictSet (d : List (String × Str)) (k : String) (v : Str) (x : String)
    (h : x ∈ (dictSet d k v).map Prod.fst) : x = k ∨ x ∈ d.map Prod.fst := by
  induction d with
  | nil =>
    simp only [dictSet, List.map_cons, List.map_nil, List.mem_singleton] at h
    exact Or.inl h
  | cons kv t ih =>
    obtain ⟨k0, v0⟩ := kv
    by_cases h0 : k0 = k
    · subst h0
      simp only [dictSet, eq_self_iff_true, if_true, List.map_cons, List.mem_cons] at h
      simp only [List.map_cons, List.mem_cons]
      tauto
    · simp only [dictSet, if_neg h0, List.map_cons, List.mem_cons] at h
      simp only [List.map_cons, List.mem_cons]
      rcases h with h | h
      · exact Or.inr (Or.inl h)
      · rcases ih h with h | h
        · exact Or.inl h
        · exact Or.inr (Or.inr h)

theorem dictSet_nodup (d : List (String × Str)) (k : String) (v : Str)
    (h : NodupKeys d) : NodupKeys (dictSet d k v) := by
  induction d with
  | nil => simp [NodupKeys, dictSet]
  | cons kv t ih =>
    obtain ⟨k0, v0⟩ := kv
    simp only [NodupKeys, List.map_cons, List.nodup_cons] at h
    by_cases h0 : k0 = k
    · subst h0
      simp only [dictSet, eq_self_iff_true, if_true, NodupKeys, List.map_cons, List.nodup_cons]
      exact h
    · simp only [dictSet, if_neg h0, NodupKeys, List.map_cons, List.nodup_cons]
      constructor
      · intro hmem
        rcases mem_keys_dictSet _ _ _ _ hmem with rfl | hm
        · exact h0 rfl
        · exact h.1 hm
      · exact ih h.2

theorem countKey_zero (k : String) (d : List (String × Str))
    (h : ¬(k ∈ d.map Prod.fst)) : countKey k d = 0 := by
  induction d with
  | nil => rfl
  | cons kv t ih =>
    obtain ⟨k0, v0⟩ := kv
    simp only [List.map_cons, List.mem_cons, not_or] at h
    simp only [countKey, List.filter_cons]
    rw [if_neg (by simpa using fun he => h.1 he.symm)]
    exact ih h.2

theorem countKey_le_one (k : String) (d : List (String × Str))
    (h : NodupKeys d) : countKey k d ≤ 1 := by
  induction d with
  | nil => simp [countKey]
  | cons kv t ih =>
    obtain ⟨k0, v0⟩ := kv
    simp only [NodupKeys, List.map_cons, List.nodup_cons] at h
    by_cases h0 : k0 = k
    · subst h0
      simp only [countKey, List.filter_cons]
      rw [if_pos (by simp)]
      have hz := countKey_zero k0 t h.1
      simp only [countKey] at hz
      simp [hz]
    · simp only [countKey, List.filter_cons]
      rw [if_neg (by simpa using h0)]
      exact ih h.2

theorem ensure_nodup {env : Env} {a : List (String × Str)} {f : List Str} {amt : Nat}
    {c : Counters} (h : NodupKeys a) :
    NodupKeys (ensureLoyaltyCreditOnce env a f amt c).1 := by
  simp only [ensureLoyaltyCreditOnce]
  repeat' split
  all_goals first
    | exact h
    | exact dictSet_nodup _ _ _ h

theorem ticketStep_nodup (env : Env) (p : PerceptionResult) (rs : RS)
    (h : NodupKeys rs.acts) : NodupKeys (ticketStep env p rs).acts := by
  simp only [ticketStep]
  repeat' split
  all_goals first
    | exact h
    | exact dictSet_nodup _ _ _ h

theorem refundStep_nodup (env : Env) (p : PerceptionResult) (rs : RS)
    (h : NodupKeys rs.acts) : NodupKeys (refundStep env p rs).acts := by
  simp only [refundStep]
  repeat' split
  all_goals first
    | exact h
    | exact dictSet_nodup _ _ _ (dictSet_nodup _ _ _ h)
    | exact ensure_nodup h

theorem defectStep_nodup (env : Env) (p : PerceptionResult) (rs : RS)
    (h : NodupKeys rs.acts) : NodupKeys (defectStep env p rs).acts := by
  simp only [defectStep]
  repeat' split
  all_goals first
    | exact h
    | exact dictSet_nodup _ _ _ (dictSet_nodup _ _ _ h)

theorem billingStep_nodup (env : Env) (p : PerceptionResult) (userText : Str) (rs rs' : RS)
    (hb : billingStep env p userText rs = some rs') (h : NodupKeys rs.acts) :
    NodupKeys rs'.acts := by
  simp only [billingStep] at hb
  repeat' split at hb
  all_goals first
    | exact absurd hb (by simp : ¬(none = some rs'))
    | (cases hb; exact h)
    | (cases hb; exact ensure_nodup h)

theorem missingStep_nodup (env : Env) (p : PerceptionResult) (rs : RS)
    (h : NodupKeys rs.acts) : NodupKeys (missingStep env p rs).acts := by
  simp only [missingStep]
  repeat' split
  all_goals first
    | exact h
    | exact ensure_nodup (dictSet_nodup _ _ _ (dictSet_nodup _ _ _ h))

theorem praiseStep_nodup (env : Env) (p : PerceptionResult) (userText : Str) (rs : RS)
    (h : NodupKeys rs.acts) : NodupKeys (praiseStep env p userText rs).acts := by
  simp only [praiseStep]
  repeat' split
  all_goals first
    | exact h
    | exact ensure_nodup h
    | exact ensure_nodup (dictSet_nodup _ _ _ h)

theorem cancelStep_nodup (env : Env) (p : PerceptionResult) (rs : RS)
    (h : NodupKeys rs.acts) : NodupKeys (cancelStep env p rs).acts := by
  simp only [cancelStep]
  repeat' split
  all_goals first
    | exact h
    | exact dictSet_nodup _ _ _ (dictSet_nodup _ _ _ h)

theorem callbackStep_nodup (env : Env) (p : PerceptionResult) (rs : RS)
    (h : NodupKeys rs.acts) : NodupKeys (callbackStep env p rs).acts := by
  simp only [callbackStep]
  repeat' split
  all_goals first
    | exact h
    | exact dictSet_nodup _ _ _ h

/-- Claim C1: for every input text, at most one credit-bearing action
id appears in the action map of one handle_complaint request, and the
credit store grows by at most one record, no matter how many
credit-eligible rules would fire. -/
theorem creditIssuedAtMostOnce (text : Str) (sent : Option ℚ) (env : Env) :
    optionProp (fun r => countKey "credit_id" r.acts ≤ 1 ∧
      r.cnt.credits ≤ env.cnt.credits + 1)
      (handleComplaint text sent env) := by
  simp only [handleComplaint]
  set p := perceive text sent with hp
  set rs0 : RS := ⟨[], [], env.cnt⟩ with hrs0
  set rs1 := orderLookupStep env p rs0 with hrs1
  set rs2 := ticketStep env p rs1 with hrs2
  set rs3 := refundStep env p rs2 with hrs3
  set rs4 := defectStep env p rs3 with hrs4
  cases hbs : billingStep env p text rs4 with
  | none => exact trivial
  | some rs5 =>
    set rs6 := missingStep env p rs5 with hrs6
    set rs7 := praiseStep env p text rs6 with hrs7
    set rs8 := cancelStep env p rs7 with hrs8
    set rs9 := callbackStep env p rs8 with hrs9
    show countKey "credit_id" rs9.acts ≤ 1 ∧ rs9.cnt.credits ≤ env.cnt.credits + 1
    refine ⟨?_, ?_⟩
    · -- at most one credit_id entry: keys stay pairwise distinct
      have h0 : NodupKeys rs0.acts := by
        rw [hrs0]
        simp [NodupKeys]
      have h1 : NodupKeys rs1.acts := by
        rw [hrs1, orderLookup_acts]
        exact h0
      have h2 : NodupKeys rs2.acts := by
        rw [hrs2]
        exact ticketStep_nodup _ _ _ h1
      have h3 : NodupKeys rs3.acts := by
        rw [hrs3]
        exact refundStep_nodup _ _ _ h2
      have h4 : NodupKeys rs4.acts := by
        rw [hrs4]
        exact defectStep_nodup _ _ _ h3
      have h5 : NodupKeys rs5.acts := billingStep_nodup _ _ _ _ _ hbs h4
      have h6 : NodupKeys rs6.acts := by
        rw [hrs6]
        exact missingStep_nodup _ _ _ h5
      have h7 : NodupKeys rs7.acts := by
        rw [hrs7]
        exact praiseStep_nodup _ _ _ _ h6
      have h8 : NodupKeys rs8.acts := by
        rw [hrs8]
        exact cancelStep_nodup _ _ _ h7
      have h9 : NodupKeys rs9.acts := by
        rw [hrs9]
        exact callbackStep_nodup _ _ _ h8
      exact countKey_le_one _ _ h9
    · -- the credit counter rises at most once
      have c1 : rs1.cnt.credits = env.cnt.credits := by
        rw [hrs1, orderLookup_cnt, hrs0]
      have c2 : rs2.cnt.credits = rs1.cnt.credits := by
        rw [hrs2]
        exact ticketStep_credits _ _ _
      have cR : rs3.cnt.credits ≤ rs2.cnt.credits +
          (if p.intent = str "refund_request" then 1 else 0) := by
        by_cases hI : p.intent = str "refund_request"
        · rw [if_pos hI, hrs3]
          exact refundStep_credits_le _ _ _
        · rw [if_neg hI, hrs3, refundStep_id _ _ _ hI]
          omega
      have c4 : rs4.cnt.credits = rs3.cnt.credits := by
        rw [hrs4]
        exact defectStep_credits _ _ _
      have cB : rs5.cnt.credits ≤ rs4.cnt.credits +
          (if p.intent = str "billing_issue" then 1 else 0) := by
        by_cases hI : p.intent = str "billing_issue"
        · rw [if_pos hI]
          exact billingStep_credits_le _ _ _ _ _ hbs
        · have hid := billingStep_id env p text rs4 hI
          rw [hbs] at hid
          cases hid
          rw [if_neg hI]
          omega
      have cM : rs6.cnt.credits ≤ rs5.cnt.credits +
          (if p.intent = str "missing_part" then 1 else 0) := by
        by_cases hI : p.intent = str "missing_part"
        · rw [if_pos hI, hrs6]
          exact missingStep_credits_le _ _ _
        · rw [if_neg hI, hrs6, missingStep_id _ _ _ hI]
          omega
      have cP : rs7.cnt.credits ≤ rs6.cnt.credits +
          (if p.intent = str "praise" then 1 else 0) := by
        by_cases hI : p.intent = str "praise"
        · rw [if_pos hI, hrs7]
          exact praiseStep_credits_le _ _ _ _
        · rw [if_neg hI, hrs7, praiseStep_id _ _ _ _ hI]
          omega
      have cC : rs8.cnt.credits ≤ rs7.cnt.credits +
          (if p.intent = str "cancellation_threat" then 1 else 0) := by
        by_cases hI : p.intent = str "cancellation_threat"
        · rw [if_pos hI, hrs8]
          exact cancelStep_credits_le _ _ _
        · rw [if_neg hI, hrs8, cancelStep_id _ _ _ hI]
          omega
      have c9 : rs9.cnt.credits = rs8.cnt.credits := by
        rw [hrs9]
        exact callbackStep_credits _ _ _
      have hsum : (if p.intent = str "refund_request" then 1 else 0) +
          (if p.intent = str "billing_issue" then 1 else 0) +
          (if p.intent = str "missing_part" then 1 else 0) +
          (if p.intent = str "praise" then 1 else 0) +
          (if p.intent = str "cancellation_threat" then 1 else 0) ≤ 1 := by
        by_cases h1 : p.intent = str "refund_request"
        · rw [if_pos h1, if_neg (by rw [h1]; decide), if_neg (by rw [h1]; decide),
            if_neg (by rw [h1]; decide), if_neg (by rw [h1]; decide)]
        · rw [if_neg h1]
          by_cases h2 : p.intent = str "billing_issue"
          · rw [if_pos h2, if_neg (by rw [h2]; decide), if_neg (by rw [h2]; decide),
              if_neg (by rw [h2]; decide)]
          · rw [if_neg h2]
            by_cases h3 : p.intent = str "missing_part"
            · rw [if_pos h3, if_neg (by rw [h3]; decide), if_neg (by rw [h3]; decide)]
            · rw [if_neg h3]
              by_cases h4 : p.intent = str "praise"
              · rw [if_pos h4, if_neg (by rw [h4]; decide)]
              · rw [if_neg h4]
                by_cases h5 : p.intent = str "cancellation_threat"
                · rw [if_pos h5]
                · rw [if_neg h5]
                  omega
      omega

/-! ## Ticket and refund-eligibility claims -/

theorem callbackStep_facts_mem (env : Env) (p : PerceptionResult) (rs : RS) (f : Str)
    (h : f ∈ rs.facts) : f ∈ (callbackStep env p rs).facts := by
  simp only [callbackStep]
  repeat' split
  all_goals simp [h]

/-- Claim C5: a ticket is created iff the classified intent is one that needs a
ticket (defect_report, billing_issue, generic_complaint, cancellation_threat,
missing_part) or is refund_request with no order found; a created ticket id
starts with "RET" exactly when the intent is cancellation_threat (with "TCK"
otherwise); for followup_existing no ticket is created and the referenced
ticket id is recorded as a fact instead. -/
theorem ticketCreationRules (text : Str) (sent : Option ℚ) (env : Env) :
    optionProp (fun r =>
      ((∃ v, dictGet r.acts "ticket_id" = some v) ↔
        (needTicket (perceive text sent).intent = true ∨
         ((perceive text sent).intent = str "refund_request" ∧
          theOrder env (perceive text sent) = none))) ∧
      (∀ v, dictGet r.acts "ticket_id" = some v →
        ((isPfx (str "RET") v = true ↔
           (perceive text sent).intent = str "cancellation_threat") ∧
         (isPfx (str "TCK") v = true ↔
           ¬((perceive text sent).intent = str "cancellation_threat")))) ∧
      ((perceive text sent).intent = str "followup_existing" →
        dictGet r.acts "ticket_id" = none ∧
        (str "Continuing prior ticket: " ++
          (dictGet (perceive text sent).entities "ticket_id").getD (str "(not provided)"))
          ∈ r.facts))
      (handleComplaint text sent env) := by
  simp only [handleComplaint]
  set p := perceive text sent with hp
  set rs0 : RS := ⟨[], [], env.cnt⟩ with hrs0
  set rs1 := orderLookupStep env p rs0 with hrs1
  set rs2 := ticketStep env p rs1 with hrs2
  set rs3 := refundStep env p rs2 with hrs3
  set rs4 := defectStep env p rs3 with hrs4
  cases hbs : billingStep env p text rs4 with
  | none => exact trivial
  | some rs5 =>
    set rs6 := missingStep env p rs5 with hrs6
    set rs7 := praiseStep env p text rs6 with hrs7
    set rs8 := cancelStep env p rs7 with hrs8
    set rs9 := callbackStep env p rs8 with hrs9
    show ((∃ v, dictGet rs9.acts "ticket_id" = some v) ↔
        (needTicket p.intent = true ∨
          (p.intent = str "refund_request" ∧ theOrder env p = none))) ∧
      (∀ v, dictGet rs9.acts "ticket_id" = some v →
        ((isPfx (str "RET") v = true ↔ p.intent = str "cancellation_threat") ∧
         (isPfx (str "TCK") v = true ↔ ¬(p.intent = str "cancellation_threat")))) ∧
      (p.intent = str "followup_existing" →
        dictGet rs9.acts "ticket_id" = none ∧
        (str "Continuing prior ticket: " ++
          (dictGet p.entities "ticket_id").getD (str "(not provided)")) ∈ rs9.facts)
    have hTick : dictGet rs9.acts "ticket_id" = dictGet rs2.acts "ticket_id" := by
      rw [hrs9, callbackStep_get (by decide), hrs8, cancelStep_get (by decide) (by decide),
        hrs7, praiseStep_get (by decide) (by decide), hrs6,
        missingStep_get (by decide) (by decide) (by decide),
        billingStep_get (by decide) env p text rs4 rs5 hbs, hrs4,
        defectStep_get (by decide) (by decide), hrs3,
        refundStep_get (by decide) (by decide) (by decide)]
    have hrs1acts : rs1.acts = [] := by
      rw [hrs1, orderLookup_acts, hrs0]
    by_cases hc : needTicket p.intent = true ∨
        (p.intent = str "refund_request" ∧ theOrder env p = none)
    · -- a ticket is created
      have h2 : rs2 = ⟨dictSet rs1.acts "ticket_id" (createTicket env p.intent rs1.cnt).1,
          rs1.facts ++ [str "Ticket: " ++ (createTicket env p.intent rs1.cnt).1],
          (createTicket env p.intent rs1.cnt).2⟩ := by
        rw [hrs2, ticketStep, if_pos hc]
      have hget : dictGet rs9.acts "ticket_id" =
          some (createTicket env p.intent rs1.cnt).1 := by
        rw [hTick, h2]
        exact dictGet_dictSet_self _ _ _
      have hfollow : ¬(p.intent = str "followup_existing") := by
        rcases hc with hc | hc
        · intro hf
          rw [hf] at hc
          exact absurd hc (by decide)
        · intro hf
          rw [hf] at hc
          exact absurd hc.1 (by decide)
      refine ⟨⟨fun _ => hc, fun _ => ⟨_, hget⟩⟩, ?_, fun hf => absurd hf hfollow⟩
      intro v hv
      rw [hget] at hv
      cases hv
      show (isPfx (str "RET") (createTicket env p.intent rs1.cnt).1 = true ↔
          p.intent = str "cancellation_threat") ∧
        (isPfx (str "TCK") (createTicket env p.intent rs1.cnt).1 = true ↔
          ¬(p.intent = str "cancellation_threat"))
      by_cases hI : p.intent = str "cancellation_threat"
      · have hRET : isPfx (str "RET") (createTicket env p.intent rs1.cnt).1 = true := by
          show isPfx (str "RET")
            (ticketKindPfx p.intent ++ '-' :: env.todayISO ++ '-' ::
              upperStr (p.intent.take 2) ++ natStr rs1.cnt.tickets) = true
          rw [ticketKindPfx, if_pos hI]
          exact isPfx_append_self _ _
        have hTCK : isPfx (str "TCK") (createTicket env p.intent rs1.cnt).1 = false := by
          show isPfx (str "TCK")
            (ticketKindPfx p.intent ++ '-' :: env.todayISO ++ '-' ::
              upperStr (p.intent.take 2) ++ natStr rs1.cnt.tickets) = false
          rw [ticketKindPfx, if_pos hI]
          rfl
        refine ⟨⟨fun _ => hI, fun _ => hRET⟩, ?_⟩
        rw [hTCK]
        simp [hI]
      · have hRET : isPfx (str "RET") (createTicket env p.intent rs1.cnt).1 = false := by
          show isPfx (str "RET")
            (ticketKindPfx p.intent ++ '-' :: env.todayISO ++ '-' ::
              upperStr (p.intent.take 2) ++ natStr rs1.cnt.tickets) = false
          rw [ticketKindPfx, if_neg hI]
          rfl
        have hTCK : isPfx (str "TCK") (createTicket env p.intent rs1.cnt).1 = true := by
          show isPfx (str "TCK")
            (ticketKindPfx p.intent ++ '-' :: env.todayISO ++ '-' ::
              upperStr (p.intent.take 2) ++ natStr rs1.cnt.tickets) = true
          rw [ticketKindPfx, if_neg hI]
          exact isPfx_append_self _ _
        refine ⟨?_, ⟨fun _ => hI, fun _ => hTCK⟩⟩
        rw [hRET]
        simp [hI]
    · -- no ticket: either the follow-up branch or nothing
      have hnone : dictGet rs2.acts "ticket_id" = none := by
        by_cases hf : p.intent = str "followup_existing"
        · rw [hrs2, ticketStep, if_neg hc, if_pos hf]
          show dictGet rs1.acts "ticket_id" = none
          rw [hrs1acts]
          rfl
        · rw [hrs2, ticketStep, if_neg hc, if_neg hf]
          rw [hrs1acts]
          rfl
      refine ⟨⟨?_, fun h => absurd h hc⟩, ?_, ?_⟩
      · rintro ⟨v, hv⟩
        rw [hTick, hnone] at hv
        exact absurd hv (by simp)
      · intro v hv
        rw [hTick, hnone] at hv
        exact absurd hv (by simp)
      · intro hf
        refine ⟨by rw [hTick]; exact hnone, ?_⟩
        -- the follow-up fact is appended by the ticket rule and survives
        have h2 : rs2.facts = rs1.facts ++ [str "Continuing prior ticket: " ++
            (dictGet p.entities "ticket_id").getD (str "(not provided)")] := by
          rw [hrs2, ticketStep, if_neg hc, if_pos hf]
        have hmem2 : (str "Continuing prior ticket: " ++
            (dictGet p.entities "ticket_id").getD (str "(not provided)")) ∈ rs2.facts := by
          rw [h2]
          simp
        have e3 : rs3 = rs2 := by
          rw [hrs3]
          exact refundStep_id _ _ _ (by rw [hf]; decide)
        have e4 : rs4 = rs3 := by
          rw [hrs4]
          exact defectStep_id _ _ _ (by rw [hf]; decide)
        have e5 : rs5 = rs4 := by
          have hid := billingStep_id env p text rs4 (by rw [hf]; decide)
          rw [hbs] at hid
          exact Option.some.inj hid
        have e6 : rs6 = rs5 := by
          rw [hrs6]
          exact missingStep_id _ _ _ (by rw [hf]; decide)
        have e7 : rs7 = rs6 := by
          rw [hrs7]
          exact praiseStep_id _ _ _ _ (by rw [hf]; decide)
        have e8 : rs8 = rs7 := by
          rw [hrs8]
          exact cancelStep_id _ _ _ (by rw [hf]; decide)
        rw [hrs9]
        apply callbackStep_facts_mem
        rw [e8, e7, e6, e5, e4, e3]
        exact hmem2

theorem replaceAll_pfx (c : Char) (old' new t : Str) :
    replaceAll (c :: old') new ((c :: old') ++ t) = new ++ replaceAll (c :: old') new t := by
  rw [replaceAll.eq_def]
  rw [dif_neg (by simp : ¬(c :: old' = []))]
  simp only [List.cons_append]
  rw [if_pos ?hpfx]
  case hpfx =>
    show isPfx (c :: old') ((c :: old') ++ t) = true
    exact isPfx_append_self _ _
  congr 1
  show replaceAll (c :: old') new (List.drop (c :: old').length ((c :: old') ++ t)) = _
  rw [List.drop_left]

theorem replaceAll_skip (old new m rest : Str)
    (h : ∀ i, i < m.length → isPfx old (m.drop i ++ rest) = false) :
    replaceAll old new (m ++ rest) = m ++ replaceAll old new rest := by
  induction m with
  | nil => simp
  | cons c m' ih =>
    have hold : old ≠ [] := by
      intro he
      have h0 := h 0 (by simp)
      rw [he] at h0
      simp [isPfx] at h0
    rw [replaceAll.eq_def, dif_neg hold]
    simp only [List.cons_append]
    rw [if_neg ?hno]
    case hno =>
      have h0 := h 0 (by simp)
      simp only [List.drop_zero, List.cons_append] at h0
      simp [h0]
    congr 1
    exact ih (fun i hi => h (i + 1) (by simp only [List.length_cons]; omega))

theorem replaceLast_append_singleton (g : Str → Str) (l : List Str) (x : Str) :
    replaceLast g (l ++ [x]) = l ++ [g x] := by
  induction l with
  | nil => rfl
  | cons a t ih =>
    rw [List.cons_append]
    cases hh : t ++ [x] with
    | nil => exact absurd hh (by simp)
    | cons b rest =>
      rw [show replaceLast g (a :: b :: rest) = a :: replaceLast g (b :: rest) from rfl,
        ← hh, ih]
      exact (List.cons_append _ _ _).symm

theorem goodwillFactPfx (cid : Str) :
    isPfx (str "Goodwill credit: $10.00 (ID ")
      (replaceAll (str "Loyalty credit") (str "Goodwill credit")
        (str "Loyalty credit: $" ++ fmtMoney goodwillCreditDefaultCents ++ str " (ID " ++
          cid ++ str ")")) = true := by
  have hK : str "Loyalty credit: $" ++ fmtMoney goodwillCreditDefaultCents ++ str " (ID " =
      str "Loyalty credit" ++ str ": $10.00 (ID " := by decide
  rw [hK]
  have hS : str "Loyalty credit" ++ str ": $10.00 (ID " ++ cid ++ str ")" =
      str "Loyalty credit" ++ (str ": $10.00 (ID " ++ (cid ++ str ")")) := by
    simp [List.append_assoc]
  rw [hS]
  rw [show (str "Loyalty credit") = 'L' :: str "oyalty credit" from rfl]
  rw [replaceAll_pfx]
  rw [replaceAll_skip _ _ _ _ ?hskip]
  case hskip =>
    intro i hi
    have h13 : (str ": $10.00 (ID ").length = 13 := by decide
    rw [h13] at hi
    interval_cases i <;> rfl
  rw [show (str "Goodwill credit: $10.00 (ID ") =
    str "Goodwill credit" ++ str ": $10.00 (ID " from by decide]
  rw [← List.append_assoc]
  exact isPfx_append_self _ _

theorem ensure_issue (env : Env) (a : List (String × Str)) (f : List Str) (amt : Nat)
    (c : Counters) (h : dictGet a "credit_id" = none) :
    ensureLoyaltyCreditOnce env a f amt c =
      (dictSet a "credit_id" (addLoyaltyCredit env c).1,
       f ++ [str "Loyalty credit: $" ++ fmtMoney amt ++ str " (ID " ++
         (addLoyaltyCredit env c).1 ++ str ")"],
       (addLoyaltyCredit env c).2) := by
  simp only [ensureLoyaltyCreditOnce, h]

/-- Claim C6: for a refund request whose order is found, when the order age
exceeds the refund window no refund id or ETA is issued, exactly one goodwill
credit is issued (the credits counter rises by one) and its fact line begins
"Goodwill credit: $10.00 (ID "; when the age is within the window a refund id
and ETA are issued and no credit is. -/
theorem refundEligibilitySplit (text : Str) (sent : Option ℚ) (env : Env) (o : Order)
    (hI : (perceive text sent).intent = str "refund_request")
    (hO : theOrder env (perceive text sent) = some o) :
    optionProp (fun r =>
      if o.ageDays ≤ o.refundableDays then
        (∃ v, dictGet r.acts "refund_id" = some v) ∧
        (∃ v, dictGet r.acts "refund_eta" = some v) ∧
        dictGet r.acts "credit_id" = none ∧
        r.cnt.credits = env.cnt.credits
      else
        dictGet r.acts "refund_id" = none ∧
        dictGet r.acts "refund_eta" = none ∧
        (∃ v, dictGet r.acts "credit_id" = some v) ∧
        r.cnt.credits = env.cnt.credits + 1 ∧
        ∃ f ∈ r.facts, isPfx (str "Goodwill credit: $10.00 (ID ") f = true)
      (handleComplaint text sent env) := by
  simp only [handleComplaint]
  set p := perceive text sent with hp
  set rs0 : RS := ⟨[], [], env.cnt⟩ with hrs0
  set rs1 := orderLookupStep env p rs0 with hrs1
  set rs2 := ticketStep env p rs1 with hrs2
  set rs3 := refundStep env p rs2 with hrs3
  set rs4 := defectStep env p rs3 with hrs4
  cases hbs : billingStep env p text rs4 with
  | none => exact trivial
  | some rs5 =>
    set rs6 := missingStep env p rs5 with hrs6
    set rs7 := praiseStep env p text rs6 with hrs7
    set rs8 := cancelStep env p rs7 with hrs8
    set rs9 := callbackStep env p rs8 with hrs9
    show if o.ageDays ≤ o.refundableDays then
        (∃ v, dictGet rs9.acts "refund_id" = some v) ∧
        (∃ v, dictGet rs9.acts "refund_eta" = some v) ∧
        dictGet rs9.acts "credit_id" = none ∧
        rs9.cnt.credits = env.cnt.credits
      else
        dictGet rs9.acts "refund_id" = none ∧
        dictGet rs9.acts "refund_eta" = none ∧
        (∃ v, dictGet rs9.acts "credit_id" = some v) ∧
        rs9.cnt.credits = env.cnt.credits + 1 ∧
        ∃ f ∈ rs9.facts, isPfx (str "Goodwill credit: $10.00 (ID ") f = true
    have e4 : rs4 = rs3 := by
      rw [hrs4]
      exact defectStep_id _ _ _ (by rw [hI]; decide)
    have e5 : rs5 = rs3 := by
      have hid := billingStep_id env p text rs4 (by rw [hI]; decide)
      rw [hbs] at hid
      rw [Option.some.inj hid, e4]
    have e6 : rs6 = rs3 := by
      rw [hrs6, missingStep_id _ _ _ (by rw [hI]; decide), e5]
    have e7 : rs7 = rs3 := by
      rw [hrs7, praiseStep_id _ _ _ _ (by rw [hI]; decide), e6]
    have e8 : rs8 = rs3 := by
      rw [hrs8, cancelStep_id _ _ _ (by rw [hI]; decide), e7]
    have hcond : ¬(needTicket p.intent = true ∨
        (p.intent = str "refund_request" ∧ theOrder env p = none)) := by
      rintro (h | h)
      · rw [hI] at h
        exact absurd h (by decide)
      · rw [hO] at h
        exact absurd h.2 (by simp)
    have hfoll : ¬(p.intent = str "followup_existing") := by
      rw [hI]
      decide
    have e2 : rs2 = rs1 := by
      rw [hrs2, ticketStep, if_neg hcond, if_neg hfoll]
    have hacts2 : rs2.acts = [] := by
      rw [e2, hrs1, orderLookup_acts, hrs0]
    have hcnt2 : rs2.cnt = env.cnt := by
      rw [e2, hrs1, orderLookup_cnt, hrs0]
    have hget9 : ∀ k : String, ¬(k = "callback") →
        dictGet rs9.acts k = dictGet rs3.acts k := by
      intro k hk
      rw [hrs9, callbackStep_get hk, e8]
    have hcr9 : rs9.cnt.credits = rs3.cnt.credits := by
      rw [hrs9, callbackStep_credits, e8]
    by_cases hel : o.ageDays ≤ o.refundableDays
    · -- eligible: refund issued, no credit
      rw [if_pos hel]
      have her1 : (isRefundEligible o).1 = true := by
        rw [isRefundEligible, if_pos hel]
      have hacts3 : rs3.acts = dictSet (dictSet rs2.acts "refund_id"
          (issueRefund env rs2.cnt).1) "refund_eta" (issueRefund env rs2.cnt).2.1 := by
        rw [hrs3, refundStep, if_pos hI, hO]
        simp only [her1, if_true]
      have hcnt3 : rs3.cnt = (issueRefund env rs2.cnt).2.2 := by
        rw [hrs3, refundStep, if_pos hI, hO]
        simp only [her1, if_true]
      refine ⟨⟨(issueRefund env rs2.cnt).1, ?_⟩,
        ⟨(issueRefund env rs2.cnt).2.1, ?_⟩, ?_, ?_⟩
      · rw [hget9 _ (by decide), hacts3,
          dictGet_dictSet_ne _ _ _ _ (by decide), dictGet_dictSet_self]
      · rw [hget9 _ (by decide), hacts3, dictGet_dictSet_self]
      · rw [hget9 _ (by decide), hacts3,
          dictGet_dictSet_ne _ _ _ _ (by decide), dictGet_dictSet_ne _ _ _ _ (by decide),
          hacts2]
        rfl
      · rw [hcr9, hcnt3]
        have : (issueRefund env rs2.cnt).2.2.credits = rs2.cnt.credits := by
          simp [issueRefund]
        rw [this, hcnt2]
    · -- ineligible: goodwill credit, relabelled fact
      rw [if_neg hel]
      have her1 : (isRefundEligible o).1 = false := by
        rw [isRefundEligible, if_neg hel]
      have hget2 : dictGet rs2.acts "credit_id" = none := by
        rw [hacts2]
        rfl
      have h3 : rs3 = ⟨dictSet rs2.acts "credit_id" (addLoyaltyCredit env rs2.cnt).1,
          replaceLast (replaceAll (str "Loyalty credit") (str "Goodwill credit"))
            ((rs2.facts ++ [str "Refund ineligible. " ++ (isRefundEligible o).2]) ++
             [str "Loyalty credit: $" ++ fmtMoney goodwillCreditDefaultCents ++ str " (ID " ++
               (addLoyaltyCredit env rs2.cnt).1 ++ str ")"]),
          (addLoyaltyCredit env rs2.cnt).2⟩ := by
        rw [hrs3, refundStep, if_pos hI, hO]
        simp only [her1, Bool.false_eq_true, if_false]
        rw [ensure_issue _ _ _ _ _ hget2]
      have hfacts3 : rs3.facts =
          (rs2.facts ++ [str "Refund ineligible. " ++ (isRefundEligible o).2]) ++
          [replaceAll (str "Loyalty credit") (str "Goodwill credit")
            (str "Loyalty credit: $" ++ fmtMoney goodwillCreditDefaultCents ++ str " (ID " ++
              (addLoyaltyCredit env rs2.cnt).1 ++ str ")")] := by
        rw [h3]
        exact replaceLast_append_singleton _ _ _
      refine ⟨?_, ?_, ⟨(addLoyaltyCredit env rs2.cnt).1, ?_⟩, ?_, ?_⟩
      · rw [hget9 _ (by decide), h3]
        show dictGet (dictSet rs2.acts "credit_id" (addLoyaltyCredit env rs2.cnt).1)
          "refund_id" = none
        rw [dictGet_dictSet_ne _ _ _ _ (by decide), hacts2]
        rfl
      · rw [hget9 _ (by decide), h3]
        show dictGet (dictSet rs2.acts "credit_id" (addLoyaltyCredit env rs2.cnt).1)
          "refund_eta" = none
        rw [dictGet_dictSet_ne _ _ _ _ (by decide), hacts2]
        rfl
      · rw [hget9 _ (by decide), h3]
        show dictGet (dictSet rs2.acts "credit_id" (addLoyaltyCredit env rs2.cnt).1)
          "credit_id" = some (addLoyaltyCredit env rs2.cnt).1
        exact dictGet_dictSet_self _ _ _
      · rw [hcr9, h3]
        show (addLoyaltyCredit env rs2.cnt).2.credits = env.cnt.credits + 1
        have : (addLoyaltyCredit env rs2.cnt).2.credits = rs2.cnt.credits + 1 := by
          simp [addLoyaltyCredit]
        rw [this, hcnt2]
      · refine ⟨replaceAll (str "Loyalty credit") (str "Goodwill credit")
            (str "Loyalty credit: $" ++ fmtMoney goodwillCreditDefaultCents ++ str " (ID " ++
              (addLoyaltyCredit env rs2.cnt).1 ++ str ")"), ?_, goodwillFactPfx _⟩
        rw [hrs9]
        apply callbackStep_facts_mem
        rw [e8, hfacts3]
        simp

theorem refundEligibilitySplit_w :
    (perceive (str "order ORD9ZX88, refund") none).intent = str "refund_request" ∧
    theOrder demoEnv (perceive (str "order ORD9ZX88, refund") none) =
      some ⟨45, str "delivered", 30, 12900⟩ ∧
    optionProp (fun r =>
      if (45 : Int) ≤ 30 then
        (∃ v, dictGet r.acts "refund_id" = some v) ∧
        (∃ v, dictGet r.acts "refund_eta" = some v) ∧
        dictGet r.acts "credit_id" = none ∧
        r.cnt.credits = demoEnv.cnt.credits
      else
        dictGet r.acts "refund_id" = none ∧
        dictGet r.acts "refund_eta" = none ∧
        (∃ v, dictGet r.acts "credit_id" = some v) ∧
        r.cnt.credits = demoEnv.cnt.credits + 1 ∧
        ∃ f ∈ r.facts, isPfx (str "Goodwill credit: $10.00 (ID ") f = true)
      (handleComplaint (str "order ORD9ZX88, refund") none demoEnv) :=
  ⟨by decide, by decide,
   refundEligibilitySplit (str "order ORD9ZX88, refund") none demoEnv
     ⟨45, str "delivered", 30, 12900⟩ (by decide) (by decide)⟩

end CSBot
